import Mathlib

/-!
Verification of the SimpleDEX deployment-utility scripts
(`contracts/extract-pairs.py` and `contracts/update-frontend-config.py`)
against their natural-language specification.

File contents are modelled as `String`s; the Python line/record operations
(`readlines`, `writelines`, `str.strip`, `line.split('=', 1)`, dict get with
last-write-wins) are embedded as executable functions on `List Char` /
`String`.  On-chain lookups (`web3` contract calls) and `re.sub` rewrites
are library calls external to this repository and are taken as oracle
parameters of the embedded functions.
-/

namespace SimpleDEX

/-! ## Character and string primitives (Python semantics) -/

/-- Whitespace characters removed by Python `str.strip()` (ASCII range,
which covers every character occurring in these files). -/
def pyWS (c : Char) : Bool :=
  c = ' ' || c = '\t' || c = '\n' || c = '\r' || c = '\x0b' || c = '\x0c'

/-- Python `str.strip()` on a character list: drop whitespace from both ends. -/
def stripL (l : List Char) : List Char :=
  ((l.dropWhile pyWS).reverse.dropWhile pyWS).reverse

/-- Python `str.strip()`. -/
def pyStrip (s : String) : String := ⟨stripL s.data⟩

/-- Python `str.startswith`. -/
def strStarts (p s : String) : Bool := p.data.isPrefixOf s.data

/-- Helper for `readlines`: split a character stream after every newline,
keeping the newline characters (Python `file.readlines()` semantics).
`acc` holds the current (reversed) partial line. -/
def splitLinesAux : List Char → List Char → List (List Char)
  | [], acc => if acc = [] then [] else [acc.reverse]
  | c :: cs, acc =>
      if c = '\n' then (acc.reverse ++ ['\n']) :: splitLinesAux cs []
      else splitLinesAux cs (c :: acc)

/-- Python `file.readlines()` on a file content string. -/
def readlines (s : String) : List String :=
  (splitLinesAux s.data []).map (fun l => (⟨l⟩ : String))

/-- Python `file.writelines(lines)`: the written file content is the
concatenation of the line strings. -/
def writelines (ls : List String) : String := ⟨(ls.map String.data).flatten⟩

/-- Helper for Python `line.split('=', 1)`: split at the first `'='`.
`acc` holds the (reversed) part before the separator. -/
def splitEqAux : List Char → List Char → List Char × List Char
  | [], acc => (acc.reverse, [])
  | c :: cs, acc => if c = '=' then (acc.reverse, cs) else splitEqAux cs (c :: acc)

/-! ## Environment Record: parsing and lookup

Both scripts parse `.env`-style files with the same loop:
strip the line, skip it when empty / starting with `#` / without `'='`,
otherwise split at the first `'='` and record `key.strip() -> value.strip()`.
The Python dict is modelled as the list of bindings in file order with
last-write-wins lookup. -/

/-- One iteration of the `.env` parsing loop: the binding produced by a
line, if any. -/
def parseEnvLine? (line : String) : Option (String × String) :=
  let t := stripL line.data
  if t ≠ [] ∧ t.head? ≠ some '#' ∧ '=' ∈ t then
    some (⟨stripL (splitEqAux t []).1⟩, ⟨stripL (splitEqAux t []).2⟩)
  else none

/-- The `.env` parsing loop over a list of lines. -/
def parseEnv (ls : List String) : List (String × String) :=
  ls.filterMap parseEnvLine?

/-- Python dict lookup over the binding list: the last binding for the key
wins (dict assignment overwrites). -/
def envGet : List (String × String) → String → Option String
  | [], _ => none
  | p :: rest, k =>
      match envGet rest k with
      | some v => some v
      | none => if p.1 = k then some p.2 else none

/-- Python `dict.get(k, d)`. -/
def envGetD (e : List (String × String)) (k : String) (d : String) : String :=
  (envGet e k).getD d

/-- The inline `.env` load in `extract-pairs.py` `main`: absent file gives
an empty mapping, otherwise the file is parsed line by line. -/
def loadStore (store : Option String) : List (String × String) :=
  match store with
  | none => []
  | some s => parseEnv (readlines s)

/-- `load_env` in `update-frontend-config.py`: prints an error and returns
`None` when the `.env` file is absent, otherwise parses it. -/
def load_env (store : Option String) : Option (List (String × String)) :=
  match store with
  | none => none
  | some s => some (parseEnv (readlines s))

/-! ## extract-pairs.py -/

/-- The zero address treated as "no pair found". -/
def zeroAddress : String := "0x0000000000000000000000000000000000000000"

/-- `get_pair_addresses`: one `getPair` call per catalogue entry.  The
`web3` contract call is the oracle `lookup`; an `Except.error` result is the
caught exception branch (logged and skipped), a returned zero address is
logged and skipped, any other returned address is recorded. -/
def get_pair_addresses
    (lookup : Option String → Option String → Except String String) :
    List (String × (Option String × Option String)) → List (String × String)
  | [] => []
  | (name, (ta, tb)) :: rest =>
      match lookup ta tb with
      | Except.ok addr =>
          if addr ≠ zeroAddress then (name, addr) :: get_pair_addresses lookup rest
          else get_pair_addresses lookup rest
      | Except.error _ => get_pair_addresses lookup rest

/-- Python `str.replace(a, b)` for single characters (replaces every
occurrence). -/
def pyReplaceChar (s : String) (a b : Char) : String :=
  ⟨s.data.map (fun c => if c = a then b else c)⟩

/-- Python `str.replace(a, '')` for a single character: removes every
occurrence. -/
def removeChar (s : String) (a : Char) : String :=
  ⟨s.data.filter (fun c => c ≠ a)⟩

/-- Python `str.upper()` (ASCII). -/
def pyUpper (s : String) : String := ⟨s.data.map Char.toUpper⟩

/-- The pair-name transliteration used by both writers in
`extract-pairs.py`: `name.replace('/', '_').replace('m', '').upper()`. -/
def pairVarCore (name : String) : String :=
  pyUpper (removeChar (pyReplaceChar name '/' '_') 'm')

/-- `"Sepolia" if chain_id == 11155111 else "Anvil"`. -/
def networkName (chainId : Nat) : String :=
  if chainId = 11155111 then "Sepolia" else "Anvil"

/-- `"SEPOLIA" if chain_id == 11155111 else "ANVIL"`. -/
def networkUpper (chainId : Nat) : String :=
  if chainId = 11155111 then "SEPOLIA" else "ANVIL"

/-- `line.strip().startswith('# Pair Addresses')`. -/
def isPairHeader (l : String) : Bool := strStarts "# Pair Addresses" (pyStrip l)

/-- `line.strip().startswith('PAIR_')`. -/
def isPairVar (l : String) : Bool := strStarts "PAIR_" (pyStrip l)

/-- The filtering loop of `update_contract_env`: drop the old pair-address
section.  `skip` is the `skip_section` flag; it is set on the header line,
and cleared on the first non-blank line that is not `PAIR_`-prefixed;
a line is kept when the (updated) flag is off and the line is not
`PAIR_`-prefixed. -/
def removePairSection : List String → Bool → List String
  | [], _ => []
  | l :: ls, skip =>
      let skip1 :=
        if isPairHeader l then true
        else if skip ∧ pyStrip l ≠ "" ∧ ¬ isPairVar l then false
        else skip
      if ¬ skip1 ∧ ¬ isPairVar l then l :: removePairSection ls skip1
      else removePairSection ls skip1

/-- `update_contract_env(pairs, chain_id)`: rewrite `contracts/.env`.
`old` is the current file content (`none` when the file does not exist);
the returned string is the content written back. -/
def update_contract_env (pairs : List (String × String)) (chainId : Nat)
    (old : Option String) : String :=
  let env_lines := match old with | none => [] | some s => readlines s
  let new_lines := removePairSection env_lines false
  let header := "\n# Pair Addresses (" ++ networkName chainId ++ " - Chain ID "
      ++ toString chainId ++ ")\n"
  writelines (new_lines ++ [header] ++
    pairs.map (fun p => "PAIR_" ++ pairVarCore p.1 ++ "=" ++ p.2 ++ "\n"))

/-- `update_frontend_env(pairs, chain_id)`: rewrite
`dex-frontend/.env.local` pair lines for the given network. -/
def update_frontend_env (pairs : List (String × String)) (chainId : Nat)
    (old : Option String) : String :=
  let env_lines := match old with | none => [] | some s => readlines s
  let new_lines := env_lines.filter
    (fun l => ¬ strStarts ("NEXT_PUBLIC_" ++ networkUpper chainId ++ "_PAIR_") (pyStrip l))
  let header := "\n# " ++ networkName chainId ++ " Pair Addresses\n"
  writelines (new_lines ++ [header] ++
    pairs.map (fun p =>
      "NEXT_PUBLIC_" ++ networkUpper chainId ++ "_PAIR_" ++ pairVarCore p.1
        ++ "=" ++ p.2 ++ "\n"))

/-- The hardcoded pair catalogue of `extract-pairs.py` `main` (token
addresses looked up in the Environment Record; a missing key gives `None`,
matching `env_vars.get`). -/
def tokenPairsOf (env : List (String × String)) :
    List (String × (Option String × Option String)) :=
  [("mUSDC/mUSDT", (envGet env "USDC_ADDRESS", envGet env "USDT_ADDRESS")),
   ("mUSDC/mDAI", (envGet env "USDC_ADDRESS", envGet env "DAI_ADDRESS")),
   ("mWETH/mUSDC", (envGet env "WETH_ADDRESS", envGet env "USDC_ADDRESS")),
   ("mWETH/mUSDT", (envGet env "WETH_ADDRESS", envGet env "USDT_ADDRESS")),
   ("mWETH/mDAI", (envGet env "WETH_ADDRESS", envGet env "DAI_ADDRESS")),
   ("mWBTC/mUSDC", (envGet env "WBTC_ADDRESS", envGet env "USDC_ADDRESS")),
   ("mWBTC/mWETH", (envGet env "WBTC_ADDRESS", envGet env "WETH_ADDRESS")),
   ("mLINK/mUSDC", (envGet env "LINK_ADDRESS", envGet env "USDC_ADDRESS")),
   ("mLINK/mWETH", (envGet env "LINK_ADDRESS", envGet env "WETH_ADDRESS")),
   ("mUNI/mUSDC", (envGet env "UNI_ADDRESS", envGet env "USDC_ADDRESS"))]

/-- `main` of `extract-pairs.py`: returns the process exit code together
with the contents written to `contracts/.env` and
`dex-frontend/.env.local` (unchanged on the exit-1 paths, which are
reached before any write).  `store` is the content of `contracts/.env`,
`frontendOld` the content of `dex-frontend/.env.local`. -/
def extractMain (chainId : Nat) (store : Option String) (frontendOld : Option String)
    (lookup : Option String → Option String → Except String String) :
    Nat × Option String × Option String :=
  let env_vars := loadStore store
  if envGetD env_vars "FACTORY_ADDRESS" "" = "" then (1, store, frontendOld)
  else
    let pairs := get_pair_addresses lookup (tokenPairsOf env_vars)
    if pairs = [] then (1, store, frontendOld)
    else (0, some (update_contract_env pairs chainId store),
             some (update_frontend_env pairs chainId frontendOld))

/-! ## update-frontend-config.py -/

/-- A `KEY=value` line of the `.env.local` template. -/
def bindLine (k v : String) : String := k ++ "=" ++ v ++ "\n"

/-- The Sepolia branch of `update_env_local`: keys assigned into
`existing_env` (in assignment order; the RPC URL only when present in the
Environment Record). -/
def sepoliaAssignments (env_vars : List (String × String)) : List (String × String) :=
  [("NEXT_PUBLIC_SEPOLIA_FACTORY_ADDRESS", envGetD env_vars "FACTORY_ADDRESS" ""),
   ("NEXT_PUBLIC_SEPOLIA_ROUTER_ADDRESS", envGetD env_vars "ROUTER_ADDRESS" ""),
   ("NEXT_PUBLIC_SEPOLIA_PRICE_ORACLE_ADDRESS", envGetD env_vars "PRICE_ORACLE_ADDRESS" ""),
   ("NEXT_PUBLIC_SEPOLIA_FAUCET_ADDRESS", envGetD env_vars "FAUCET_ADDRESS" ""),
   ("NEXT_PUBLIC_SEPOLIA_USDC_ADDRESS", envGetD env_vars "USDC_ADDRESS" ""),
   ("NEXT_PUBLIC_SEPOLIA_USDT_ADDRESS", envGetD env_vars "USDT_ADDRESS" ""),
   ("NEXT_PUBLIC_SEPOLIA_DAI_ADDRESS", envGetD env_vars "DAI_ADDRESS" ""),
   ("NEXT_PUBLIC_SEPOLIA_WETH_ADDRESS", envGetD env_vars "WETH_ADDRESS" ""),
   ("NEXT_PUBLIC_SEPOLIA_WBTC_ADDRESS", envGetD env_vars "WBTC_ADDRESS" ""),
   ("NEXT_PUBLIC_SEPOLIA_LINK_ADDRESS", envGetD env_vars "LINK_ADDRESS" ""),
   ("NEXT_PUBLIC_SEPOLIA_UNI_ADDRESS", envGetD env_vars "UNI_ADDRESS" "")]
  ++ (match envGet env_vars "SEPOLIA_RPC_URL" with
      | some v => [("NEXT_PUBLIC_SEPOLIA_RPC_URL", v)]
      | none => [])

/-- The Anvil branch of `update_env_local`. -/
def anvilAssignments (env_vars : List (String × String)) : List (String × String) :=
  [("NEXT_PUBLIC_FACTORY_ADDRESS", envGetD env_vars "FACTORY_ADDRESS" ""),
   ("NEXT_PUBLIC_ROUTER_ADDRESS", envGetD env_vars "ROUTER_ADDRESS" ""),
   ("NEXT_PUBLIC_PRICE_ORACLE_ADDRESS", envGetD env_vars "PRICE_ORACLE_ADDRESS" ""),
   ("NEXT_PUBLIC_FAUCET_ADDRESS", envGetD env_vars "FAUCET_ADDRESS" ""),
   ("NEXT_PUBLIC_ANVIL_RPC_URL", "http://127.0.0.1:8545"),
   ("NEXT_PUBLIC_USDC_ADDRESS", envGetD env_vars "USDC_ADDRESS" ""),
   ("NEXT_PUBLIC_USDT_ADDRESS", envGetD env_vars "USDT_ADDRESS" ""),
   ("NEXT_PUBLIC_DAI_ADDRESS", envGetD env_vars "DAI_ADDRESS" ""),
   ("NEXT_PUBLIC_WETH_ADDRESS", envGetD env_vars "WETH_ADDRESS" ""),
   ("NEXT_PUBLIC_WBTC_ADDRESS", envGetD env_vars "WBTC_ADDRESS" ""),
   ("NEXT_PUBLIC_LINK_ADDRESS", envGetD env_vars "LINK_ADDRESS" ""),
   ("NEXT_PUBLIC_UNI_ADDRESS", envGetD env_vars "UNI_ADDRESS" "")]

/-- The lines of the `env_content` f-string template of
`update_env_local`, parameterized by the final `existing_env` mapping. -/
def envLocalTemplate (e : List (String × String)) : List String :=
  ["# SimpleDex Frontend Environment Configuration\n",
   "# Auto-updated by update-frontend-config.py\n",
   "# You can manually edit this file - only deployed addresses will be auto-updated\n",
   "\n",
   "# ===================================\n",
   "# Network Selection\n",
   "# ===================================\n",
   bindLine "NEXT_PUBLIC_DEFAULT_CHAIN_ID" (envGetD e "NEXT_PUBLIC_DEFAULT_CHAIN_ID" "31337"),
   "\n",
   "# ===================================\n",
   "# Anvil (Local Development) - Chain ID 31337\n",
   "# ===================================\n",
   bindLine "NEXT_PUBLIC_ANVIL_RPC_URL" (envGetD e "NEXT_PUBLIC_ANVIL_RPC_URL" "http://127.0.0.1:8545"),
   "\n",
   "# Anvil contract addresses (auto-populated by startup.sh)\n",
   bindLine "NEXT_PUBLIC_FACTORY_ADDRESS" (envGetD e "NEXT_PUBLIC_FACTORY_ADDRESS" ""),
   bindLine "NEXT_PUBLIC_ROUTER_ADDRESS" (envGetD e "NEXT_PUBLIC_ROUTER_ADDRESS" ""),
   bindLine "NEXT_PUBLIC_PRICE_ORACLE_ADDRESS" (envGetD e "NEXT_PUBLIC_PRICE_ORACLE_ADDRESS" ""),
   bindLine "NEXT_PUBLIC_FAUCET_ADDRESS" (envGetD e "NEXT_PUBLIC_FAUCET_ADDRESS" ""),
   "\n",
   "# Anvil token addresses\n",
   bindLine "NEXT_PUBLIC_USDC_ADDRESS" (envGetD e "NEXT_PUBLIC_USDC_ADDRESS" ""),
   bindLine "NEXT_PUBLIC_USDT_ADDRESS" (envGetD e "NEXT_PUBLIC_USDT_ADDRESS" ""),
   bindLine "NEXT_PUBLIC_DAI_ADDRESS" (envGetD e "NEXT_PUBLIC_DAI_ADDRESS" ""),
   bindLine "NEXT_PUBLIC_WETH_ADDRESS" (envGetD e "NEXT_PUBLIC_WETH_ADDRESS" ""),
   bindLine "NEXT_PUBLIC_WBTC_ADDRESS" (envGetD e "NEXT_PUBLIC_WBTC_ADDRESS" ""),
   bindLine "NEXT_PUBLIC_LINK_ADDRESS" (envGetD e "NEXT_PUBLIC_LINK_ADDRESS" ""),
   bindLine "NEXT_PUBLIC_UNI_ADDRESS" (envGetD e "NEXT_PUBLIC_UNI_ADDRESS" ""),
   "\n",
   "# ===================================\n",
   "# Sepolia Testnet - Chain ID 11155111\n",
   "# ===================================\n",
   bindLine "NEXT_PUBLIC_SEPOLIA_RPC_URL" (envGetD e "NEXT_PUBLIC_SEPOLIA_RPC_URL" ""),
   "\n",
   "# Sepolia contract addresses (auto-populated by startup-sepolia.sh)\n",
   bindLine "NEXT_PUBLIC_SEPOLIA_FACTORY_ADDRESS" (envGetD e "NEXT_PUBLIC_SEPOLIA_FACTORY_ADDRESS" ""),
   bindLine "NEXT_PUBLIC_SEPOLIA_ROUTER_ADDRESS" (envGetD e "NEXT_PUBLIC_SEPOLIA_ROUTER_ADDRESS" ""),
   bindLine "NEXT_PUBLIC_SEPOLIA_PRICE_ORACLE_ADDRESS" (envGetD e "NEXT_PUBLIC_SEPOLIA_PRICE_ORACLE_ADDRESS" ""),
   bindLine "NEXT_PUBLIC_SEPOLIA_FAUCET_ADDRESS" (envGetD e "NEXT_PUBLIC_SEPOLIA_FAUCET_ADDRESS" ""),
   "\n",
   "# Sepolia token addresses\n",
   bindLine "NEXT_PUBLIC_SEPOLIA_USDC_ADDRESS" (envGetD e "NEXT_PUBLIC_SEPOLIA_USDC_ADDRESS" ""),
   bindLine "NEXT_PUBLIC_SEPOLIA_USDT_ADDRESS" (envGetD e "NEXT_PUBLIC_SEPOLIA_USDT_ADDRESS" ""),
   bindLine "NEXT_PUBLIC_SEPOLIA_DAI_ADDRESS" (envGetD e "NEXT_PUBLIC_SEPOLIA_DAI_ADDRESS" ""),
   bindLine "NEXT_PUBLIC_SEPOLIA_WETH_ADDRESS" (envGetD e "NEXT_PUBLIC_SEPOLIA_WETH_ADDRESS" ""),
   bindLine "NEXT_PUBLIC_SEPOLIA_WBTC_ADDRESS" (envGetD e "NEXT_PUBLIC_SEPOLIA_WBTC_ADDRESS" ""),
   bindLine "NEXT_PUBLIC_SEPOLIA_LINK_ADDRESS" (envGetD e "NEXT_PUBLIC_SEPOLIA_LINK_ADDRESS" ""),
   bindLine "NEXT_PUBLIC_SEPOLIA_UNI_ADDRESS" (envGetD e "NEXT_PUBLIC_SEPOLIA_UNI_ADDRESS" "")]

/-- The full `.env.local` content written by `update_env_local`. -/
def renderEnvLocal (e : List (String × String)) : String :=
  writelines (envLocalTemplate e)

/-- `update_env_local(env_vars, frontend_dir, network)`: parse the existing
`.env.local` (`old`), apply the network branch's assignments, default the
chain id if absent, render the template.  Returns the written content. -/
def update_env_local (env_vars : List (String × String)) (old : Option String)
    (network : String) : String :=
  let existing0 := loadStore old
  let existing1 := existing0 ++
    (if network = "sepolia" then sepoliaAssignments env_vars else anvilAssignments env_vars)
  let existing2 :=
    if envGet existing1 "NEXT_PUBLIC_DEFAULT_CHAIN_ID" = none then
      existing1 ++ [("NEXT_PUBLIC_DEFAULT_CHAIN_ID", "31337")]
    else existing1
  renderEnvLocal existing2

/-- The `existing_env` mapping of `update_env_local` at the moment the
template is rendered (the same computation as in `update_env_local`,
exposed for reasoning). -/
def envLocalFinal (env_vars : List (String × String)) (old : Option String)
    (network : String) : List (String × String) :=
  let existing0 := loadStore old
  let existing1 := existing0 ++
    (if network = "sepolia" then sepoliaAssignments env_vars else anvilAssignments env_vars)
  if envGet existing1 "NEXT_PUBLIC_DEFAULT_CHAIN_ID" = none then
    existing1 ++ [("NEXT_PUBLIC_DEFAULT_CHAIN_ID", "31337")]
  else existing1

/-- `update_tokens_config`: skip (with a warning) when the artifact is
absent, else rewrite its content through the `re.sub` template
substitution, taken as the oracle `t`. -/
def update_tokens_config (t : String → String) (file : Option String) : Option String :=
  match file with
  | none => none
  | some c => some (t c)

/-- `update_pricefeeds_config`: same skip-or-rewrite shape. -/
def update_pricefeeds_config (t : String → String) (file : Option String) : Option String :=
  match file with
  | none => none
  | some c => some (t c)

/-- `update_page_config`: same skip-or-rewrite shape. -/
def update_page_config (t : String → String) (file : Option String) : Option String :=
  match file with
  | none => none
  | some c => some (t c)

/-- `update_deprecated_config`: same skip-or-rewrite shape. -/
def update_deprecated_config (t : String → String) (file : Option String) : Option String :=
  match file with
  | none => none
  | some c => some (t c)

/-- The downstream artifacts of `update-frontend-config.py`, each `none`
when the file does not exist. -/
structure FrontendFS where
  tokens_ts : Option String
  pricefeeds_ts : Option String
  page_tsx : Option String
  deprecated_ts : Option String
  env_local : Option String
deriving DecidableEq, Repr

/-- `main` of `update-frontend-config.py`: returns the exit code and the
resulting artifact states.  `store` is `contracts/.env`; `tTok`, `tPrice`,
`tPage`, `tDep` are the `re.sub` rewrite oracles of the four TypeScript
updaters; `dirExists` is the `frontend_dir.exists()` check. -/
def frontendMain (network : String) (store : Option String)
    (tTok tPrice tPage tDep : String → String) (dirExists : Bool)
    (fs : FrontendFS) : Nat × FrontendFS :=
  match load_env store with
  | none => (1, fs)
  | some env_vars =>
    if env_vars = [] then (1, fs)
    else if envGetD env_vars "FACTORY_ADDRESS" "" = "" ∨
            envGetD env_vars "ROUTER_ADDRESS" "" = "" then (1, fs)
    else if ¬ dirExists then (1, fs)
    else
      let fs1 := { fs with env_local := some (update_env_local env_vars fs.env_local network) }
      if network = "anvil" then
        (0, { fs1 with
                tokens_ts := update_tokens_config tTok fs1.tokens_ts,
                pricefeeds_ts := update_pricefeeds_config tPrice fs1.pricefeeds_ts,
                page_tsx := update_page_config tPage fs1.page_tsx,
                deprecated_ts := update_deprecated_config tDep fs1.deprecated_ts })
      else (0, fs1)

/-! ## Spec-side definitions (for refinement comparisons) -/

/-- Split a character list at `'/'` separators. -/
def splitSlash : List Char → List (List Char)
  | [] => [[]]
  | c :: rest =>
      let r := splitSlash rest
      if c = '/' then [] :: r
      else match r with
           | [] => [[c]]
           | h :: t => (c :: h) :: t

/-- Strip one leading `'m'` marker from a token symbol. -/
def stripMarker (l : List Char) : List Char :=
  match l with
  | 'm' :: rest => rest
  | _ => l

/-- Modelled from the spec: the expected variable-name transliteration,
"stripping the `m` prefix marker, replacing `/` with `_`, upper-casing"
(spec section 8, example bullet). -/
def specPairVar (name : String) : String :=
  pyUpper ⟨List.intercalate ['_'] ((splitSlash name.data).map stripMarker)⟩

/-- The pair names of the hardcoded catalogue. -/
def pairCatalogueNames : List String :=
  ["mUSDC/mUSDT", "mUSDC/mDAI", "mWETH/mUSDC", "mWETH/mUSDT", "mWETH/mDAI",
   "mWBTC/mUSDC", "mWBTC/mWETH", "mLINK/mUSDC", "mLINK/mWETH", "mUNI/mUSDC"]

/-- The keys of the fixed `.env.local` template, in rendered order. -/
def envLocalKeys : List String :=
  ["NEXT_PUBLIC_DEFAULT_CHAIN_ID",
   "NEXT_PUBLIC_ANVIL_RPC_URL",
   "NEXT_PUBLIC_FACTORY_ADDRESS",
   "NEXT_PUBLIC_ROUTER_ADDRESS",
   "NEXT_PUBLIC_PRICE_ORACLE_ADDRESS",
   "NEXT_PUBLIC_FAUCET_ADDRESS",
   "NEXT_PUBLIC_USDC_ADDRESS",
   "NEXT_PUBLIC_USDT_ADDRESS",
   "NEXT_PUBLIC_DAI_ADDRESS",
   "NEXT_PUBLIC_WETH_ADDRESS",
   "NEXT_PUBLIC_WBTC_ADDRESS",
   "NEXT_PUBLIC_LINK_ADDRESS",
   "NEXT_PUBLIC_UNI_ADDRESS",
   "NEXT_PUBLIC_SEPOLIA_RPC_URL",
   "NEXT_PUBLIC_SEPOLIA_FACTORY_ADDRESS",
   "NEXT_PUBLIC_SEPOLIA_ROUTER_ADDRESS",
   "NEXT_PUBLIC_SEPOLIA_PRICE_ORACLE_ADDRESS",
   "NEXT_PUBLIC_SEPOLIA_FAUCET_ADDRESS",
   "NEXT_PUBLIC_SEPOLIA_USDC_ADDRESS",
   "NEXT_PUBLIC_SEPOLIA_USDT_ADDRESS",
   "NEXT_PUBLIC_SEPOLIA_DAI_ADDRESS",
   "NEXT_PUBLIC_SEPOLIA_WETH_ADDRESS",
   "NEXT_PUBLIC_SEPOLIA_WBTC_ADDRESS",
   "NEXT_PUBLIC_SEPOLIA_LINK_ADDRESS",
   "NEXT_PUBLIC_SEPOLIA_UNI_ADDRESS"]

/-- The template's default for each key. -/
def envLocalDefault (k : String) : String :=
  if k = "NEXT_PUBLIC_DEFAULT_CHAIN_ID" then "31337"
  else if k = "NEXT_PUBLIC_ANVIL_RPC_URL" then "http://127.0.0.1:8545"
  else ""

/-- The bindings a parse of the rendered template yields, in order. -/
def envLocalBindings (e : List (String × String)) : List (String × String) :=
  envLocalKeys.map (fun k => (k, envGetD e k (envLocalDefault k)))

/-- A value that survives the `.env` parse unchanged: no surrounding
whitespace and no newline. -/
def valClean (v : String) : Prop :=
  v.data.dropWhile pyWS = v.data ∧
  v.data.reverse.dropWhile pyWS = v.data.reverse ∧
  '\n' ∉ v.data

instance (v : String) : Decidable (valClean v) := by
  unfold valClean; infer_instance

/-- All values of an Environment Record are clean. -/
def EnvClean (e : List (String × String)) : Prop :=
  ∀ p ∈ e, valClean p.2

instance (e : List (String × String)) : Decidable (EnvClean e) := by
  unfold EnvClean; infer_instance

/-- A key literal of the template: nonempty, no whitespace, no `'='`, no
newline, not starting with `'#'`. -/
def keyGood (K : String) : Prop :=
  K.data ≠ [] ∧ (∀ c ∈ K.data, pyWS c = false ∧ c ≠ '=' ∧ c ≠ '\n') ∧
  K.data.head? ≠ some '#'

instance (K : String) : Decidable (keyGood K) := by
  unfold keyGood; infer_instance

end SimpleDEX

namespace SimpleDEX

/-! ## Line-level lemmas -/

/-- A string that is exactly one text line: nonempty, ends with a newline,
and has no interior newline. -/
def LineGood (l : String) : Prop :=
  l.data ≠ [] ∧ l.data.getLast? = some '\n' ∧ '\n' ∉ l.data.dropLast

instance (l : String) : Decidable (LineGood l) := by
  unfold LineGood; infer_instance

theorem lineGood_elim {l : String} (h : LineGood l) :
    ∃ b, l.data = b ++ ['\n'] ∧ '\n' ∉ b := by
  obtain ⟨-, h2, h3⟩ := h
  exact ⟨l.data.dropLast, (List.dropLast_append_getLast? _ h2).symm, h3⟩

theorem splitLinesAux_line (b : List Char) (rest acc : List Char) (hb : '\n' ∉ b) :
    splitLinesAux (b ++ '\n' :: rest) acc
      = (acc.reverse ++ b ++ ['\n']) :: splitLinesAux rest [] := by
  induction b generalizing acc with
  | nil => simp [splitLinesAux]
  | cons c b ih =>
      have hc : c ≠ '\n' := fun h => hb (h ▸ List.mem_cons_self c b)
      have hb' : '\n' ∉ b := fun h => hb (List.mem_cons_of_mem _ h)
      show splitLinesAux (c :: (b ++ '\n' :: rest)) acc = _
      simp only [splitLinesAux, if_neg hc]
      rw [ih (c :: acc) hb']
      simp

theorem splitLinesAux_flatten (L : List (List Char))
    (h : ∀ l ∈ L, ∃ b, l = b ++ ['\n'] ∧ '\n' ∉ b) :
    splitLinesAux L.flatten [] = L := by
  induction L with
  | nil => simp [splitLinesAux]
  | cons l L ih =>
      obtain ⟨b, hb, hbn⟩ := h l (List.mem_cons_self _ _)
      have hrest : ∀ l' ∈ L, ∃ b, l' = b ++ ['\n'] ∧ '\n' ∉ b :=
        fun l' hl' => h l' (List.mem_cons_of_mem _ hl')
      rw [List.flatten_cons, hb]
      have : b ++ ['\n'] ++ L.flatten = b ++ '\n' :: L.flatten := by simp
      rw [this, splitLinesAux_line b _ [] hbn, ih hrest]
      simp

theorem readlines_writelines (L : List String) (h : ∀ l ∈ L, LineGood l) :
    readlines (writelines L) = L := by
  unfold readlines writelines
  have : splitLinesAux (List.map String.data L).flatten [] = List.map String.data L := by
    refine splitLinesAux_flatten _ ?_
    intro l hl
    obtain ⟨s, hs, rfl⟩ := List.mem_map.mp hl
    exact lineGood_elim (h s hs)
  rw [show ((⟨(List.map String.data L).flatten⟩ : String)).data
        = (List.map String.data L).flatten from rfl, this, List.map_map]
  have hid : (fun l => (⟨l⟩ : String)) ∘ String.data = id := funext fun s => rfl
  rw [hid, List.map_id]

/-- Every line produced by `splitLinesAux` is a newline-free body with at
most a trailing newline. -/
theorem splitLinesAux_shape (cs : List Char) :
    ∀ acc, '\n' ∉ acc → ∀ l ∈ splitLinesAux cs acc,
      ∃ b, '\n' ∉ b ∧ (l = b ++ ['\n'] ∨ l = b) := by
  induction cs with
  | nil =>
      intro acc hacc l hl
      by_cases h : acc = []
      · simp [splitLinesAux, h] at hl
      · simp only [splitLinesAux, if_neg h, List.mem_singleton] at hl
        exact ⟨acc.reverse, by simpa using hacc, Or.inr hl⟩
  | cons c cs ih =>
      intro acc hacc l hl
      by_cases hc : c = '\n'
      · rw [hc] at hl
        simp only [splitLinesAux, if_true, eq_self_iff_true, List.mem_cons] at hl
        rcases hl with hl | hl
        · exact ⟨acc.reverse, by simpa using hacc, Or.inl hl⟩
        · exact ih [] (by simp) l hl
      · simp only [splitLinesAux, if_neg hc] at hl
        exact ih (c :: acc) (by simp [hacc, Ne.symm hc]) l hl

theorem readlines_shape (s : String) :
    ∀ l ∈ readlines s, ∃ b, '\n' ∉ b ∧ (l.data = b ++ ['\n'] ∨ l.data = b) := by
  intro l hl
  unfold readlines at hl
  obtain ⟨ld, hld, rfl⟩ := List.mem_map.mp hl
  exact splitLinesAux_shape s.data [] (by simp) ld hld

/-! ## Strip lemmas -/

theorem dropWhile_eq_self_of_head {c : Char} {l : List Char} (h : pyWS c = false) :
    List.dropWhile pyWS (c :: l) = c :: l := by
  rw [List.dropWhile_cons, if_neg (by simp [h])]

theorem dropWhile_head_false :
    ∀ (l : List Char) {c : Char} {cs : List Char},
      List.dropWhile pyWS l = c :: cs → pyWS c = false := by
  intro l
  induction l with
  | nil => intro c cs h; simp [List.dropWhile] at h
  | cons a l ih =>
      intro c cs h
      rw [List.dropWhile_cons] at h
      split at h
      · exact ih h
      · cases h; simpa using ‹¬ pyWS a = true›

theorem dropWhile_append_clean {l₁ l₂ : List Char}
    (h₁ : List.dropWhile pyWS l₁ = l₁) (h₂ : List.dropWhile pyWS l₂ = l₂) :
    List.dropWhile pyWS (l₁ ++ l₂) = l₁ ++ l₂ := by
  rw [List.dropWhile_append]
  split
  · next h =>
      rw [h₁] at h
      rw [List.isEmpty_iff.mp h]
      simpa using h₂
  · rw [h₁]

theorem dropWhile_all_false {l : List Char} (h : ∀ c ∈ l, pyWS c = false) :
    List.dropWhile pyWS l = l := by
  cases l with
  | nil => rfl
  | cons c cs => exact dropWhile_eq_self_of_head (h c (List.mem_cons_self _ _))

theorem stripL_of_clean {l : List Char}
    (h₁ : List.dropWhile pyWS l = l) (h₂ : List.dropWhile pyWS l.reverse = l.reverse) :
    stripL l = l := by
  unfold stripL
  rw [h₁, h₂, List.reverse_reverse]

theorem stripL_right_clean (l : List Char) :
    List.dropWhile pyWS (stripL l).reverse = (stripL l).reverse := by
  unfold stripL
  rw [List.reverse_reverse, List.dropWhile_idempotent]

theorem stripL_left_clean (l : List Char) :
    List.dropWhile pyWS (stripL l) = stripL l := by
  unfold stripL
  set m := List.dropWhile pyWS l with hm
  set r := List.dropWhile pyWS m.reverse with hr
  rcases hr0 : r with _ | ⟨c, cs⟩
  · simp [hr0]
  · have hrne : r ≠ [] := by rw [hr0]; simp
    have hsuf : r <:+ m.reverse := hr ▸ List.dropWhile_suffix pyWS
    obtain ⟨t, ht⟩ := hsuf
    have hlast : r.reverse.head? = m.reverse.getLast? := by
      rw [List.head?_reverse, ← ht, List.getLast?_append_of_ne_nil t hrne]
    have hmnil : m ≠ [] := by
      intro h
      rw [h] at ht
      simp at ht
      exact hrne ht.2
    obtain ⟨c', cs', hm'⟩ := List.exists_cons_of_ne_nil hmnil
    have hc' : pyWS c' = false := dropWhile_head_false l (by rw [← hm, hm'])
    have : m.reverse.getLast? = some c' := by
      rw [List.getLast?_reverse, hm', List.head?_cons]
    rw [this] at hlast
    obtain ⟨rr, hrr⟩ : ∃ rr, r.reverse = c' :: rr := by
      rcases hre : r.reverse with _ | ⟨x, xs⟩
      · rw [hre] at hlast; simp at hlast
      · rw [hre] at hlast
        simp only [List.head?_cons, Option.some_inj] at hlast
        exact ⟨xs, by rw [hlast]⟩
    rw [← hr0, hrr]
    exact dropWhile_eq_self_of_head hc'

theorem stripL_subset (l : List Char) : stripL l ⊆ l := by
  intro x hx
  unfold stripL at hx
  rw [List.mem_reverse] at hx
  have h1 := (@List.dropWhile_sublist _ ((List.dropWhile pyWS l).reverse) pyWS).subset hx
  rw [List.mem_reverse] at h1
  exact (List.dropWhile_sublist pyWS).subset h1

theorem stripL_drop_newline (b : List Char) :
    stripL (b ++ ['\n']) = stripL b := by
  unfold stripL
  rw [List.dropWhile_append]
  split
  · next h =>
      have hws : List.dropWhile pyWS ['\n'] = [] := by decide
      rw [hws, List.isEmpty_iff.mp h]
  · next h =>
      rw [List.reverse_append]
      have h1 : List.dropWhile pyWS (['\n'].reverse ++ (List.dropWhile pyWS b).reverse)
          = List.dropWhile pyWS (List.dropWhile pyWS b).reverse := by
        show List.dropWhile pyWS ('\n' :: (List.dropWhile pyWS b).reverse) = _
        rw [List.dropWhile_cons, if_pos (by decide)]
      rw [h1]


/-! ## Parse lemmas -/

theorem splitEqAux_spec (pre : List Char) :
    ∀ (post acc : List Char), '=' ∉ pre →
      splitEqAux (pre ++ '=' :: post) acc = (acc.reverse ++ pre, post) := by
  induction pre with
  | nil => intro post acc _; simp [splitEqAux]
  | cons c pre ih =>
      intro post acc hpre
      have hc : c ≠ '=' := fun h => hpre (h ▸ List.mem_cons_self c pre)
      have hpre' : '=' ∉ pre := fun h => hpre (List.mem_cons_of_mem _ h)
      show splitEqAux (c :: (pre ++ '=' :: post)) acc = _
      simp only [splitEqAux, if_neg hc]
      rw [ih post (c :: acc) hpre']
      simp

theorem splitEqAux_snd_subset (l : List Char) :
    ∀ acc, (splitEqAux l acc).2 ⊆ l := by
  induction l with
  | nil => intro acc; simp [splitEqAux]
  | cons c cs ih =>
      intro acc
      simp only [splitEqAux]
      by_cases hc : c = '='
      · rw [if_pos hc]
        exact fun x hx => List.mem_cons_of_mem _ hx
      · rw [if_neg hc]
        exact fun x hx => List.mem_cons_of_mem _ (ih (c :: acc) hx)

theorem parseEnv_cons_none {l : String} {ls : List String}
    (h : parseEnvLine? l = none) : parseEnv (l :: ls) = parseEnv ls := by
  simp [parseEnv, List.filterMap_cons, h]

theorem parseEnv_cons_some {l : String} {ls : List String} {kv : String × String}
    (h : parseEnvLine? l = some kv) : parseEnv (l :: ls) = kv :: parseEnv ls := by
  simp [parseEnv, List.filterMap_cons, h]

theorem keyGood_data_clean {K : String} (hK : keyGood K) :
    List.dropWhile pyWS K.data = K.data :=
  dropWhile_all_false (fun c hc => ((hK.2.1 c hc).1))

theorem keyGood_data_rev_clean {K : String} (hK : keyGood K) :
    List.dropWhile pyWS K.data.reverse = K.data.reverse :=
  dropWhile_all_false (fun c hc => (hK.2.1 c (List.mem_reverse.mp hc)).1)

theorem bindLine_data (K v : String) :
    (bindLine K v).data = K.data ++ '=' :: (v.data ++ ['\n']) := by
  show K.data ++ "=".data ++ v.data ++ "\n".data
      = K.data ++ '=' :: (v.data ++ ['\n'])
  simp

theorem bindLine_strip {K v : String} (hK : keyGood K) (hv : valClean v) :
    stripL (bindLine K v).data = K.data ++ '=' :: v.data := by
  rw [bindLine_data]
  obtain ⟨hKne, hKall, -⟩ := hK
  obtain ⟨c, cs, hKd⟩ := List.exists_cons_of_ne_nil hKne
  have hcw : pyWS c = false := (hKall c (by rw [hKd]; exact List.mem_cons_self _ _)).1
  unfold stripL
  have hleft : List.dropWhile pyWS (K.data ++ '=' :: (v.data ++ ['\n']))
      = K.data ++ '=' :: (v.data ++ ['\n']) := by
    rw [hKd, List.cons_append]
    exact dropWhile_eq_self_of_head hcw
  rw [hleft]
  have hrev : (K.data ++ '=' :: (v.data ++ ['\n'])).reverse
      = '\n' :: (v.data.reverse ++ '=' :: K.data.reverse) := by simp
  rw [hrev, List.dropWhile_cons, if_pos (by decide)]
  have hmid : List.dropWhile pyWS (v.data.reverse ++ '=' :: K.data.reverse)
      = v.data.reverse ++ '=' :: K.data.reverse :=
    dropWhile_append_clean hv.2.1 (dropWhile_eq_self_of_head (by decide))
  rw [hmid]
  simp

theorem parse_bindLine {K v : String} (hK : keyGood K) (hv : valClean v) :
    parseEnvLine? (bindLine K v) = some (K, v) := by
  unfold parseEnvLine?
  rw [bindLine_strip hK hv]
  obtain ⟨hKne, hKall, hKhash⟩ := hK
  obtain ⟨c, cs, hKd⟩ := List.exists_cons_of_ne_nil hKne
  have hne : K.data ++ '=' :: v.data ≠ [] := by rw [hKd]; simp
  have hhash : (K.data ++ '=' :: v.data).head? ≠ some '#' := by
    rw [hKd, List.cons_append, List.head?_cons]
    rw [hKd] at hKhash
    simpa using hKhash
  have hmem : '=' ∈ K.data ++ '=' :: v.data :=
    List.mem_append_right _ (List.mem_cons_self _ _)
  rw [if_pos ⟨hne, hhash, hmem⟩]
  have hKeq : '=' ∉ K.data := fun h => (hKall '=' h).2.1 rfl
  rw [splitEqAux_spec K.data v.data [] hKeq]
  have h1 : stripL K.data = K.data :=
    stripL_of_clean (keyGood_data_clean ⟨hKne, hKall, hKhash⟩)
      (keyGood_data_rev_clean ⟨hKne, hKall, hKhash⟩)
  have h2 : stripL v.data = v.data := stripL_of_clean hv.1 hv.2.1
  simp only [List.reverse_nil, List.nil_append, h1, h2]

/-- Every value produced by the `.env` parse is clean: stripped at both
ends and newline-free. -/
theorem parseEnv_values_clean (s : String) :
    ∀ p ∈ parseEnv (readlines s), valClean p.2 := by
  intro p hp
  unfold parseEnv at hp
  obtain ⟨l, hl, hpl⟩ := List.mem_filterMap.mp hp
  simp only [parseEnvLine?] at hpl
  split at hpl
  · next hcond =>
      have hpv : p.2 = ⟨stripL (splitEqAux (stripL l.data) []).2⟩ := by
        cases hpl; rfl
      obtain ⟨b, hbn, hbl⟩ := readlines_shape s l hl
      have htn : '\n' ∉ stripL l.data := by
        rcases hbl with hbl | hbl
        · rw [hbl, stripL_drop_newline b]
          exact fun h => hbn (stripL_subset b h)
        · rw [hbl]
          exact fun h => hbn (stripL_subset b h)
      refine ⟨?_, ?_, ?_⟩
      · rw [hpv]
        exact stripL_left_clean _
      · rw [hpv]
        exact stripL_right_clean _
      · rw [hpv]
        intro h
        exact htn (splitEqAux_snd_subset (stripL l.data) [] (stripL_subset _ h))
  · exact absurd hpl.symm (Option.some_ne_none p)

theorem loadStore_clean (store : Option String) : EnvClean (loadStore store) := by
  cases store with
  | none => intro p hp; simp [loadStore] at hp
  | some s => exact parseEnv_values_clean s

/-! ## envGet lemmas -/

theorem envGet_cons (p : String × String) (e : List (String × String)) (k : String) :
    envGet (p :: e) k = (envGet e k).or (if p.1 = k then some p.2 else none) := by
  show (match envGet e k with
        | some v => some v
        | none => if p.1 = k then some p.2 else none) = _
  cases envGet e k <;> rfl

theorem envGet_append (a b : List (String × String)) (k : String) :
    envGet (a ++ b) k = (envGet b k).or (envGet a k) := by
  induction a with
  | nil => rw [List.nil_append]; cases envGet b k <;> rfl
  | cons p a ih =>
      rw [List.cons_append, envGet_cons, ih, envGet_cons, Option.or_assoc]

theorem envGet_mem {e : List (String × String)} {k v : String}
    (h : envGet e k = some v) : (k, v) ∈ e := by
  induction e with
  | nil => simp [envGet] at h
  | cons p e ih =>
      rw [envGet_cons] at h
      cases he : envGet e k with
      | some w =>
          rw [he] at h
          have h' : envGet e k = some v := by rw [he]; exact h
          exact List.mem_cons_of_mem _ (ih h')
      | none =>
          rw [he] at h
          have h' : (if p.1 = k then some p.2 else none) = some v := h
          split at h'
          · next hpk =>
              have hv2 : p.2 = v := by injection h'
              have hp : p = (k, v) := by
                cases p
                simp only at hpk hv2
                rw [hpk, hv2]
              rw [hp]
              exact List.mem_cons_self _ _
          · next => simp at h'

theorem envGet_not_mem {e : List (String × String)} {k : String}
    (h : k ∉ e.map Prod.fst) : envGet e k = none := by
  induction e with
  | nil => rfl
  | cons p e ih =>
      rw [List.map_cons, List.mem_cons] at h
      push_neg at h
      rw [envGet_cons, ih h.2, if_neg (fun hpk => h.1 hpk.symm)]
      rfl

theorem envGet_map_of_mem {keys : List String} {f : String → String} {k : String}
    (h : k ∈ keys) : envGet (keys.map (fun k' => (k', f k'))) k = some (f k) := by
  induction keys with
  | nil => simp at h
  | cons k0 keys ih =>
      rw [List.map_cons, envGet_cons]
      by_cases hk : k ∈ keys
      · rw [ih hk]; rfl
      · have hk0 : k0 = k := by
          rcases List.mem_cons.mp h with h1 | h1
          · exact h1.symm
          · exact absurd h1 hk
        have hnone : envGet (keys.map (fun k' => (k', f k'))) k = none := by
          apply envGet_not_mem
          intro hmem
          rw [List.map_map] at hmem
          simp only [List.mem_map] at hmem
          obtain ⟨x, hx, hxe⟩ := hmem
          exact hk (hxe ▸ hx)
        rw [hnone, if_pos hk0]
        rw [hk0]
        rfl

theorem envGet_map_of_not_mem {keys : List String} {f : String → String} {k : String}
    (h : k ∉ keys) : envGet (keys.map (fun k' => (k', f k'))) k = none := by
  apply envGet_not_mem
  intro hmem
  rw [List.map_map] at hmem
  simp only [List.mem_map] at hmem
  obtain ⟨x, hx, hxe⟩ := hmem
  exact h (hxe ▸ hx)

theorem envGetD_clean {e : List (String × String)} {k d : String}
    (he : EnvClean e) (hd : valClean d) : valClean (envGetD e k d) := by
  unfold envGetD
  cases hg : envGet e k with
  | none => exact hd
  | some v => exact he (k, v) (envGet_mem hg)

theorem envClean_append {a b : List (String × String)}
    (ha : EnvClean a) (hb : EnvClean b) : EnvClean (a ++ b) := by
  intro p hp
  rcases List.mem_append.mp hp with h | h
  · exact ha p h
  · exact hb p h

/-! ## The rendered `.env.local` template parses back to its bindings -/

theorem bindLine_lineGood {K v : String} (hK : keyGood K) (hv : valClean v) :
    LineGood (bindLine K v) := by
  rw [LineGood, bindLine_data]
  refine ⟨by simp, ?_, ?_⟩
  · rw [List.getLast?_append_of_ne_nil _ (by simp)]
    rw [show ('=' :: (v.data ++ ['\n'])) = ('=' :: v.data) ++ ['\n'] from by simp]
    rw [List.getLast?_append_of_ne_nil _ (by simp)]
    rfl
  · rw [show K.data ++ '=' :: (v.data ++ ['\n']) = (K.data ++ '=' :: v.data) ++ ['\n'] from by simp]
    rw [List.dropLast_concat]
    intro hmem
    rcases List.mem_append.mp hmem with h | h
    · exact (hK.2.1 '\n' h).2.2 rfl
    · rcases List.mem_cons.mp h with h1 | h1
      · exact absurd h1.symm (by decide)
      · exact hv.2.2 h1

/-- The bindings that parsing the rendered template recovers, provided the
substituted values are clean. -/
theorem parse_renderEnvLocal (e : List (String × String)) (he : EnvClean e) :
    parseEnv (readlines (renderEnvLocal e)) = envLocalBindings e := by
  have hval : ∀ k d, valClean d → valClean (envGetD e k d) :=
    fun k d hd => envGetD_clean he hd
  have hgood : ∀ l ∈ envLocalTemplate e, LineGood l := by
    intro l hl
    simp only [envLocalTemplate, List.mem_cons, List.not_mem_nil, or_false] at hl
    rcases hl with rfl|rfl|rfl|rfl|rfl|rfl|rfl|rfl|rfl|rfl|rfl|rfl|rfl|rfl|rfl|rfl|rfl|rfl|rfl|rfl|rfl|rfl|rfl|rfl|rfl|rfl|rfl|rfl|rfl|rfl|rfl|rfl|rfl|rfl|rfl|rfl|rfl|rfl|rfl|rfl|rfl|rfl|rfl|rfl|rfl|rfl|rfl|rfl
    all_goals first
      | decide
      | exact bindLine_lineGood (by decide) (hval _ _ (by decide))
  rw [renderEnvLocal, readlines_writelines _ hgood]
  show parseEnv (envLocalTemplate e) = _
  unfold envLocalTemplate
  rw [parseEnv_cons_none (by decide), parseEnv_cons_none (by decide),
      parseEnv_cons_none (by decide), parseEnv_cons_none (by decide),
      parseEnv_cons_none (by decide), parseEnv_cons_none (by decide),
      parseEnv_cons_none (by decide),
      parseEnv_cons_some (parse_bindLine (by decide) (hval _ _ (by decide))),
      parseEnv_cons_none (by decide), parseEnv_cons_none (by decide),
      parseEnv_cons_none (by decide), parseEnv_cons_none (by decide),
      parseEnv_cons_some (parse_bindLine (by decide) (hval _ _ (by decide))),
      parseEnv_cons_none (by decide), parseEnv_cons_none (by decide),
      parseEnv_cons_some (parse_bindLine (by decide) (hval _ _ (by decide))),
      parseEnv_cons_some (parse_bindLine (by decide) (hval _ _ (by decide))),
      parseEnv_cons_some (parse_bindLine (by decide) (hval _ _ (by decide))),
      parseEnv_cons_some (parse_bindLine (by decide) (hval _ _ (by decide))),
      parseEnv_cons_none (by decide), parseEnv_cons_none (by decide),
      parseEnv_cons_some (parse_bindLine (by decide) (hval _ _ (by decide))),
      parseEnv_cons_some (parse_bindLine (by decide) (hval _ _ (by decide))),
      parseEnv_cons_some (parse_bindLine (by decide) (hval _ _ (by decide))),
      parseEnv_cons_some (parse_bindLine (by decide) (hval _ _ (by decide))),
      parseEnv_cons_some (parse_bindLine (by decide) (hval _ _ (by decide))),
      parseEnv_cons_some (parse_bindLine (by decide) (hval _ _ (by decide))),
      parseEnv_cons_some (parse_bindLine (by decide) (hval _ _ (by decide))),
      parseEnv_cons_none (by decide), parseEnv_cons_none (by decide),
      parseEnv_cons_none (by decide), parseEnv_cons_none (by decide),
      parseEnv_cons_some (parse_bindLine (by decide) (hval _ _ (by decide))),
      parseEnv_cons_none (by decide), parseEnv_cons_none (by decide),
      parseEnv_cons_some (parse_bindLine (by decide) (hval _ _ (by decide))),
      parseEnv_cons_some (parse_bindLine (by decide) (hval _ _ (by decide))),
      parseEnv_cons_some (parse_bindLine (by decide) (hval _ _ (by decide))),
      parseEnv_cons_some (parse_bindLine (by decide) (hval _ _ (by decide))),
      parseEnv_cons_none (by decide), parseEnv_cons_none (by decide),
      parseEnv_cons_some (parse_bindLine (by decide) (hval _ _ (by decide))),
      parseEnv_cons_some (parse_bindLine (by decide) (hval _ _ (by decide))),
      parseEnv_cons_some (parse_bindLine (by decide) (hval _ _ (by decide))),
      parseEnv_cons_some (parse_bindLine (by decide) (hval _ _ (by decide))),
      parseEnv_cons_some (parse_bindLine (by decide) (hval _ _ (by decide))),
      parseEnv_cons_some (parse_bindLine (by decide) (hval _ _ (by decide))),
      parseEnv_cons_some (parse_bindLine (by decide) (hval _ _ (by decide)))]
  show _ = envLocalBindings e
  simp [parseEnv, envLocalBindings, envLocalKeys, envLocalDefault]

/-! ## update_env_local: structure lemmas -/

theorem update_env_local_eq (e : List (String × String)) (old : Option String)
    (network : String) :
    update_env_local e old network = renderEnvLocal (envLocalFinal e old network) := rfl

theorem envGet_singleton (k' v k : String) :
    envGet [(k', v)] k = if k' = k then some v else none := by
  rw [envGet_cons]
  rfl

theorem sepoliaAssignments_clean {e : List (String × String)} (he : EnvClean e) :
    EnvClean (sepoliaAssignments e) := by
  intro p hp
  unfold sepoliaAssignments at hp
  rcases List.mem_append.mp hp with h | h
  · simp only [List.mem_cons, List.not_mem_nil, or_false] at h
    rcases h with rfl|rfl|rfl|rfl|rfl|rfl|rfl|rfl|rfl|rfl|rfl
    all_goals exact envGetD_clean he (by decide)
  · cases hg : envGet e "SEPOLIA_RPC_URL" with
    | none => rw [hg] at h; simp at h
    | some v =>
        rw [hg] at h
        simp only [List.mem_singleton] at h
        rw [h]
        exact he ("SEPOLIA_RPC_URL", v) (envGet_mem hg)

theorem anvilAssignments_clean {e : List (String × String)} (he : EnvClean e) :
    EnvClean (anvilAssignments e) := by
  intro p hp
  unfold anvilAssignments at hp
  simp only [List.mem_cons, List.not_mem_nil, or_false] at hp
  rcases hp with rfl|rfl|rfl|rfl|rfl|rfl|rfl|rfl|rfl|rfl|rfl|rfl
  all_goals first
    | exact envGetD_clean he (by decide)
    | decide

theorem sepoliaAssignments_chainid_none (e : List (String × String)) :
    envGet (sepoliaAssignments e) "NEXT_PUBLIC_DEFAULT_CHAIN_ID" = none := by
  apply envGet_not_mem
  intro h
  unfold sepoliaAssignments at h
  rw [List.map_append] at h
  rcases List.mem_append.mp h with h | h
  · simp at h
  · cases hg : envGet e "SEPOLIA_RPC_URL" <;> rw [hg] at h <;> simp at h

theorem anvilAssignments_chainid_none (e : List (String × String)) :
    envGet (anvilAssignments e) "NEXT_PUBLIC_DEFAULT_CHAIN_ID" = none := by
  apply envGet_not_mem
  intro h
  unfold anvilAssignments at h
  simp at h

theorem envLocalFinal_clean {e : List (String × String)} (old : Option String)
    (network : String) (he : EnvClean e) : EnvClean (envLocalFinal e old network) := by
  have hA : EnvClean (if network = "sepolia" then sepoliaAssignments e else anvilAssignments e) := by
    split
    · exact sepoliaAssignments_clean he
    · exact anvilAssignments_clean he
  have hbase : EnvClean (loadStore old ++
      (if network = "sepolia" then sepoliaAssignments e else anvilAssignments e)) :=
    envClean_append (loadStore_clean old) hA
  show EnvClean (if envGet (loadStore old ++
      (if network = "sepolia" then sepoliaAssignments e else anvilAssignments e))
        "NEXT_PUBLIC_DEFAULT_CHAIN_ID" = none then
      (loadStore old ++
        (if network = "sepolia" then sepoliaAssignments e else anvilAssignments e))
        ++ [("NEXT_PUBLIC_DEFAULT_CHAIN_ID", "31337")]
    else loadStore old ++
      (if network = "sepolia" then sepoliaAssignments e else anvilAssignments e))
  by_cases hc : envGet (loadStore old ++
      (if network = "sepolia" then sepoliaAssignments e else anvilAssignments e))
        "NEXT_PUBLIC_DEFAULT_CHAIN_ID" = none
  · rw [if_pos hc]
    refine envClean_append hbase ?_
    intro p hp
    simp only [List.mem_singleton] at hp
    rw [hp]
    decide
  · rw [if_neg hc]
    exact hbase

/-- The rendered template only depends on the looked-up template values. -/
theorem renderEnvLocal_congr {E1 E2 : List (String × String)}
    (h : ∀ k ∈ envLocalKeys, envGetD E1 k (envLocalDefault k) = envGetD E2 k (envLocalDefault k)) :
    renderEnvLocal E1 = renderEnvLocal E2 := by
  have hkd : ∀ k d, k ∈ envLocalKeys → envLocalDefault k = d →
      envGetD E1 k d = envGetD E2 k d := by
    intro k d hk hd
    rw [← hd]
    exact h k hk
  unfold renderEnvLocal envLocalTemplate
  rw [hkd "NEXT_PUBLIC_DEFAULT_CHAIN_ID" "31337" (by decide) (by decide),
      hkd "NEXT_PUBLIC_ANVIL_RPC_URL" "http://127.0.0.1:8545" (by decide) (by decide),
      hkd "NEXT_PUBLIC_FACTORY_ADDRESS" "" (by decide) (by decide),
      hkd "NEXT_PUBLIC_ROUTER_ADDRESS" "" (by decide) (by decide),
      hkd "NEXT_PUBLIC_PRICE_ORACLE_ADDRESS" "" (by decide) (by decide),
      hkd "NEXT_PUBLIC_FAUCET_ADDRESS" "" (by decide) (by decide),
      hkd "NEXT_PUBLIC_USDC_ADDRESS" "" (by decide) (by decide),
      hkd "NEXT_PUBLIC_USDT_ADDRESS" "" (by decide) (by decide),
      hkd "NEXT_PUBLIC_DAI_ADDRESS" "" (by decide) (by decide),
      hkd "NEXT_PUBLIC_WETH_ADDRESS" "" (by decide) (by decide),
      hkd "NEXT_PUBLIC_WBTC_ADDRESS" "" (by decide) (by decide),
      hkd "NEXT_PUBLIC_LINK_ADDRESS" "" (by decide) (by decide),
      hkd "NEXT_PUBLIC_UNI_ADDRESS" "" (by decide) (by decide),
      hkd "NEXT_PUBLIC_SEPOLIA_RPC_URL" "" (by decide) (by decide),
      hkd "NEXT_PUBLIC_SEPOLIA_FACTORY_ADDRESS" "" (by decide) (by decide),
      hkd "NEXT_PUBLIC_SEPOLIA_ROUTER_ADDRESS" "" (by decide) (by decide),
      hkd "NEXT_PUBLIC_SEPOLIA_PRICE_ORACLE_ADDRESS" "" (by decide) (by decide),
      hkd "NEXT_PUBLIC_SEPOLIA_FAUCET_ADDRESS" "" (by decide) (by decide),
      hkd "NEXT_PUBLIC_SEPOLIA_USDC_ADDRESS" "" (by decide) (by decide),
      hkd "NEXT_PUBLIC_SEPOLIA_USDT_ADDRESS" "" (by decide) (by decide),
      hkd "NEXT_PUBLIC_SEPOLIA_DAI_ADDRESS" "" (by decide) (by decide),
      hkd "NEXT_PUBLIC_SEPOLIA_WETH_ADDRESS" "" (by decide) (by decide),
      hkd "NEXT_PUBLIC_SEPOLIA_WBTC_ADDRESS" "" (by decide) (by decide),
      hkd "NEXT_PUBLIC_SEPOLIA_LINK_ADDRESS" "" (by decide) (by decide),
      hkd "NEXT_PUBLIC_SEPOLIA_UNI_ADDRESS" "" (by decide) (by decide)]

/-- A second `update_env_local` run on its own output is the identity:
the rendered template parses back to exactly the template bindings, and the
same assignments are applied on top. -/
theorem update_env_local_idem_aux (e : List (String × String)) (old : Option String)
    (network : String) (he : EnvClean e) :
    update_env_local e (some (update_env_local e old network)) network
      = update_env_local e old network := by
  have hclean := envLocalFinal_clean old network he
  have hparse : loadStore (some (update_env_local e old network))
      = envLocalBindings (envLocalFinal e old network) := by
    rw [update_env_local_eq]
    exact parse_renderEnvLocal _ hclean
  have hAdef : envGet (if network = "sepolia" then sepoliaAssignments e else anvilAssignments e)
      "NEXT_PUBLIC_DEFAULT_CHAIN_ID" = none := by
    split
    · exact sepoliaAssignments_chainid_none e
    · exact anvilAssignments_chainid_none e
  have hBget : envGet (envLocalBindings (envLocalFinal e old network)) "NEXT_PUBLIC_DEFAULT_CHAIN_ID"
      = some (envGetD (envLocalFinal e old network) "NEXT_PUBLIC_DEFAULT_CHAIN_ID"
          (envLocalDefault "NEXT_PUBLIC_DEFAULT_CHAIN_ID")) :=
    @envGet_map_of_mem envLocalKeys _ _ (by decide)
  have hfinal2 : envLocalFinal e (some (update_env_local e old network)) network
      = envLocalBindings (envLocalFinal e old network) ++
        (if network = "sepolia" then sepoliaAssignments e else anvilAssignments e) := by
    show (if envGet (loadStore (some (update_env_local e old network)) ++
            (if network = "sepolia" then sepoliaAssignments e else anvilAssignments e))
            "NEXT_PUBLIC_DEFAULT_CHAIN_ID" = none then
          (loadStore (some (update_env_local e old network)) ++
            (if network = "sepolia" then sepoliaAssignments e else anvilAssignments e))
            ++ [("NEXT_PUBLIC_DEFAULT_CHAIN_ID", "31337")]
        else loadStore (some (update_env_local e old network)) ++
          (if network = "sepolia" then sepoliaAssignments e else anvilAssignments e)) = _
    rw [hparse, envGet_append, hAdef, hBget]
    rw [if_neg (by simp)]
  rw [update_env_local_eq e (some (update_env_local e old network)) network, hfinal2,
      update_env_local_eq e old network]
  apply renderEnvLocal_congr
  intro k hk
  have hBk : envGet (envLocalBindings (envLocalFinal e old network)) k
      = some (envGetD (envLocalFinal e old network) k (envLocalDefault k)) :=
    @envGet_map_of_mem envLocalKeys _ _ hk
  unfold envGetD
  rw [envGet_append, hBk]
  cases hAk : envGet (if network = "sepolia" then sepoliaAssignments e else anvilAssignments e) k with
  | none => rfl
  | some a =>
      have hkDef : k ≠ "NEXT_PUBLIC_DEFAULT_CHAIN_ID" := by
        intro hkd
        rw [hkd, hAdef] at hAk
        exact absurd hAk (by simp)
      have hEk : envGet (envLocalFinal e old network) k = some a := by
        show envGet (if envGet (loadStore old ++
              (if network = "sepolia" then sepoliaAssignments e else anvilAssignments e))
              "NEXT_PUBLIC_DEFAULT_CHAIN_ID" = none then
            (loadStore old ++
              (if network = "sepolia" then sepoliaAssignments e else anvilAssignments e))
              ++ [("NEXT_PUBLIC_DEFAULT_CHAIN_ID", "31337")]
          else loadStore old ++
            (if network = "sepolia" then sepoliaAssignments e else anvilAssignments e)) k = some a
        by_cases hc : envGet (loadStore old ++
            (if network = "sepolia" then sepoliaAssignments e else anvilAssignments e))
            "NEXT_PUBLIC_DEFAULT_CHAIN_ID" = none
        · rw [if_pos hc, envGet_append, envGet_singleton,
              if_neg (fun h => hkDef h.symm), envGet_append, hAk]
          rfl
        · rw [if_neg hc, envGet_append, hAk]
          rfl
      rw [hEk]
      rfl

/-! ## removePairSection lemmas -/

theorem removePairSection_sublist (ls : List String) :
    ∀ skip, (removePairSection ls skip).Sublist ls := by
  induction ls with
  | nil => intro skip; simp [removePairSection]
  | cons l ls ih =>
      intro skip
      simp only [removePairSection]
      set sk1 := (if isPairHeader l then true
        else if skip ∧ pyStrip l ≠ "" ∧ ¬ isPairVar l then false
        else skip) with hsk1
      split
      · exact List.Sublist.cons₂ _ (ih _)
      · exact List.Sublist.cons _ (ih _)

theorem removePairSection_keeps (ls : List String) :
    ∀ skip, (ls.filter
        (fun l => !(isPairHeader l) && !(isPairVar l) && !(pyStrip l == ""))).Sublist
      (removePairSection ls skip) := by
  induction ls with
  | nil => intro skip; simp [removePairSection]
  | cons l ls ih =>
      intro skip
      rw [List.filter_cons]
      by_cases hp : (!(isPairHeader l) && !(isPairVar l) && !(pyStrip l == "")) = true
      · rw [if_pos hp]
        simp only [Bool.and_eq_true, Bool.not_eq_true'] at hp
        obtain ⟨⟨h1, h2⟩, h3⟩ := hp
        have h3' : pyStrip l ≠ "" := by simpa using h3
        have hskip1 : ∀ sk : Bool,
            (if isPairHeader l then true
             else if sk ∧ pyStrip l ≠ "" ∧ ¬ isPairVar l then false
             else sk) = false := by
          intro sk
          cases sk <;> simp [h1, h2, h3']
        simp only [removePairSection, hskip1]
        rw [if_pos (by simp [h2])]
        exact List.Sublist.cons₂ _ (ih _)
      · rw [if_neg hp]
        simp only [removePairSection]
        set sk1 := (if isPairHeader l then true
          else if skip ∧ pyStrip l ≠ "" ∧ ¬ isPairVar l then false
          else skip) with hsk1
        split
        · exact List.Sublist.cons _ (ih _)
        · exact ih _

theorem removePairSection_all_pass (ls : List String)
    (h : ∀ l ∈ ls, isPairHeader l = false ∧ isPairVar l = false) :
    removePairSection ls false = ls := by
  induction ls with
  | nil => rfl
  | cons l ls ih =>
      obtain ⟨h1, h2⟩ := h l (List.mem_cons_self _ _)
      have hrest := fun l' hl' => h l' (List.mem_cons_of_mem _ hl')
      simp [removePairSection, h1, h2, ih hrest]

/-! ## get_pair_addresses lemmas -/

theorem mem_get_pair_addresses
    (lookup : Option String → Option String → Except String String)
    (tps : List (String × (Option String × Option String))) (name addr : String) :
    (name, addr) ∈ get_pair_addresses lookup tps ↔
      ∃ ta tb, (name, (ta, tb)) ∈ tps ∧ lookup ta tb = Except.ok addr ∧
        addr ≠ zeroAddress := by
  induction tps with
  | nil => simp [get_pair_addresses]
  | cons p rest ih =>
      obtain ⟨n0, ta0, tb0⟩ := p
      cases hl : lookup ta0 tb0 with
      | ok a0 =>
          by_cases hz : a0 = zeroAddress
          · rw [show get_pair_addresses lookup ((n0, (ta0, tb0)) :: rest)
                  = get_pair_addresses lookup rest from by
                simp [get_pair_addresses, hl, hz]]
            rw [ih]
            constructor
            · rintro ⟨ta, tb, hmem, hok, hnz⟩
              exact ⟨ta, tb, List.mem_cons_of_mem _ hmem, hok, hnz⟩
            · rintro ⟨ta, tb, hmem, hok, hnz⟩
              rcases List.mem_cons.mp hmem with heq | hmem'
              · have hta : ta = ta0 ∧ tb = tb0 ∧ name = n0 := by
                  have h1 := congrArg Prod.fst heq
                  have h2 := congrArg Prod.snd heq
                  simp at h1 h2
                  exact ⟨h2.1, h2.2, h1⟩
                rw [hta.1, hta.2.1, hl] at hok
                have : a0 = addr := by injection hok
                exact absurd (this ▸ hz) hnz
              · exact ⟨ta, tb, hmem', hok, hnz⟩
          · rw [show get_pair_addresses lookup ((n0, (ta0, tb0)) :: rest)
                  = (n0, a0) :: get_pair_addresses lookup rest from by
                simp [get_pair_addresses, hl, hz]]
            rw [List.mem_cons, ih]
            constructor
            · rintro (heq | ⟨ta, tb, hmem, hok, hnz⟩)
              · have h1 : name = n0 ∧ addr = a0 := by
                  have ha := congrArg Prod.fst heq
                  have hb := congrArg Prod.snd heq
                  simp at ha hb
                  exact ⟨ha, hb⟩
                refine ⟨ta0, tb0, ?_, ?_, ?_⟩
                · rw [h1.1]; exact List.mem_cons_self _ _
                · rw [hl, h1.2]
                · rw [h1.2]; exact hz
              · exact ⟨ta, tb, List.mem_cons_of_mem _ hmem, hok, hnz⟩
            · rintro ⟨ta, tb, hmem, hok, hnz⟩
              rcases List.mem_cons.mp hmem with heq | hmem'
              · left
                have hta : ta = ta0 ∧ tb = tb0 ∧ name = n0 := by
                  have h1 := congrArg Prod.fst heq
                  have h2 := congrArg Prod.snd heq
                  simp at h1 h2
                  exact ⟨h2.1, h2.2, h1⟩
                rw [hta.1, hta.2.1, hl] at hok
                have : a0 = addr := by injection hok
                rw [hta.2.2, ← this]
              · right
                exact ⟨ta, tb, hmem', hok, hnz⟩
      | error msg =>
          rw [show get_pair_addresses lookup ((n0, (ta0, tb0)) :: rest)
                  = get_pair_addresses lookup rest from by
              simp [get_pair_addresses, hl]]
          rw [ih]
          constructor
          · rintro ⟨ta, tb, hmem, hok, hnz⟩
            exact ⟨ta, tb, List.mem_cons_of_mem _ hmem, hok, hnz⟩
          · rintro ⟨ta, tb, hmem, hok, hnz⟩
            rcases List.mem_cons.mp hmem with heq | hmem'
            · have hta : ta = ta0 ∧ tb = tb0 := by
                have h2 := congrArg Prod.snd heq
                simp at h2
                exact ⟨h2.1, h2.2⟩
              rw [hta.1, hta.2, hl] at hok
              exact absurd hok (by simp)
            · exact ⟨ta, tb, hmem', hok, hnz⟩

theorem get_pair_addresses_keys_subset
    (lookup : Option String → Option String → Except String String)
    (tps : List (String × (Option String × Option String))) :
    ∀ n ∈ (get_pair_addresses lookup tps).map Prod.fst, n ∈ tps.map Prod.fst := by
  intro n hn
  obtain ⟨⟨n', a⟩, hmem, hfst⟩ := List.mem_map.mp hn
  obtain ⟨ta, tb, hmem', -, -⟩ := (mem_get_pair_addresses lookup tps n' a).mp hmem
  rw [← hfst]
  exact List.mem_map.mpr ⟨(n', (ta, tb)), hmem', rfl⟩

theorem get_pair_addresses_skip_error
    (lookup : Option String → Option String → Except String String)
    (xs ys : List (String × (Option String × Option String)))
    (n : String) (ta tb : Option String) (msg : String)
    (h : lookup ta tb = Except.error msg) :
    get_pair_addresses lookup (xs ++ (n, (ta, tb)) :: ys)
      = get_pair_addresses lookup (xs ++ ys) := by
  induction xs with
  | nil => simp [get_pair_addresses, h]
  | cons p xs ih =>
      obtain ⟨n0, ta0, tb0⟩ := p
      rw [List.cons_append, List.cons_append]
      cases hl : lookup ta0 tb0 with
      | ok a0 => simp [get_pair_addresses, hl, ih]
      | error m0 => simp [get_pair_addresses, hl, ih]

/-! ## update_env_local key-preservation lemmas -/

theorem sepoliaAssignments_get_none (e : List (String × String)) (k : String)
    (hk : k ∉ ["NEXT_PUBLIC_SEPOLIA_FACTORY_ADDRESS", "NEXT_PUBLIC_SEPOLIA_ROUTER_ADDRESS",
      "NEXT_PUBLIC_SEPOLIA_PRICE_ORACLE_ADDRESS", "NEXT_PUBLIC_SEPOLIA_FAUCET_ADDRESS",
      "NEXT_PUBLIC_SEPOLIA_USDC_ADDRESS", "NEXT_PUBLIC_SEPOLIA_USDT_ADDRESS",
      "NEXT_PUBLIC_SEPOLIA_DAI_ADDRESS", "NEXT_PUBLIC_SEPOLIA_WETH_ADDRESS",
      "NEXT_PUBLIC_SEPOLIA_WBTC_ADDRESS", "NEXT_PUBLIC_SEPOLIA_LINK_ADDRESS",
      "NEXT_PUBLIC_SEPOLIA_UNI_ADDRESS", "NEXT_PUBLIC_SEPOLIA_RPC_URL"]) :
    envGet (sepoliaAssignments e) k = none := by
  apply envGet_not_mem
  intro h
  unfold sepoliaAssignments at h
  rw [List.map_append] at h
  rcases List.mem_append.mp h with h | h
  · simp only [List.map_cons, List.map_nil, List.mem_cons, List.not_mem_nil, or_false] at h
    apply hk
    rcases h with rfl|rfl|rfl|rfl|rfl|rfl|rfl|rfl|rfl|rfl|rfl <;> decide
  · cases hg : envGet e "SEPOLIA_RPC_URL" with
    | none => rw [hg] at h; simp at h
    | some v =>
        rw [hg] at h
        simp only [List.map_cons, List.map_nil, List.mem_singleton] at h
        exact hk (by rw [h]; decide)

theorem anvilAssignments_get_none (e : List (String × String)) (k : String)
    (hk : k ∉ ["NEXT_PUBLIC_FACTORY_ADDRESS", "NEXT_PUBLIC_ROUTER_ADDRESS",
      "NEXT_PUBLIC_PRICE_ORACLE_ADDRESS", "NEXT_PUBLIC_FAUCET_ADDRESS",
      "NEXT_PUBLIC_ANVIL_RPC_URL", "NEXT_PUBLIC_USDC_ADDRESS", "NEXT_PUBLIC_USDT_ADDRESS",
      "NEXT_PUBLIC_DAI_ADDRESS", "NEXT_PUBLIC_WETH_ADDRESS", "NEXT_PUBLIC_WBTC_ADDRESS",
      "NEXT_PUBLIC_LINK_ADDRESS", "NEXT_PUBLIC_UNI_ADDRESS"]) :
    envGet (anvilAssignments e) k = none := by
  apply envGet_not_mem
  intro h
  unfold anvilAssignments at h
  simp only [List.map_cons, List.map_nil, List.mem_cons, List.not_mem_nil, or_false] at h
  apply hk
  rcases h with rfl|rfl|rfl|rfl|rfl|rfl|rfl|rfl|rfl|rfl|rfl|rfl <;> decide

theorem update_env_local_preserve_key (e : List (String × String)) (old : String)
    (network k v : String) (he : EnvClean e)
    (hk : k ∈ envLocalKeys)
    (hkDef : k ≠ "NEXT_PUBLIC_DEFAULT_CHAIN_ID")
    (hA : envGet (if network = "sepolia" then sepoliaAssignments e else anvilAssignments e) k = none)
    (hold : envGet (parseEnv (readlines old)) k = some v) :
    envGet (parseEnv (readlines (update_env_local e (some old) network))) k = some v := by
  have hp : parseEnv (readlines (update_env_local e (some old) network))
      = envLocalBindings (envLocalFinal e (some old) network) := by
    rw [update_env_local_eq]
    exact parse_renderEnvLocal _ (envLocalFinal_clean (some old) network he)
  have hF : envGet (envLocalFinal e (some old) network) k = some v := by
    show envGet (if envGet (loadStore (some old) ++
          (if network = "sepolia" then sepoliaAssignments e else anvilAssignments e))
          "NEXT_PUBLIC_DEFAULT_CHAIN_ID" = none then
        (loadStore (some old) ++
          (if network = "sepolia" then sepoliaAssignments e else anvilAssignments e))
          ++ [("NEXT_PUBLIC_DEFAULT_CHAIN_ID", "31337")]
      else loadStore (some old) ++
        (if network = "sepolia" then sepoliaAssignments e else anvilAssignments e)) k = some v
    by_cases hc : envGet (loadStore (some old) ++
        (if network = "sepolia" then sepoliaAssignments e else anvilAssignments e))
        "NEXT_PUBLIC_DEFAULT_CHAIN_ID" = none
    · rw [if_pos hc, envGet_append, envGet_singleton, if_neg (fun h => hkDef h.symm),
          envGet_append, hA]
      show envGet (loadStore (some old)) k = some v
      exact hold
    · rw [if_neg hc, envGet_append, hA]
      show envGet (loadStore (some old)) k = some v
      exact hold
  have hbind : envGet (envLocalBindings (envLocalFinal e (some old) network)) k
      = some (envGetD (envLocalFinal e (some old) network) k (envLocalDefault k)) :=
    @envGet_map_of_mem envLocalKeys _ _ hk
  rw [hp, hbind]
  unfold envGetD
  rw [hF]
  rfl

/-! ## Claim theorems -/

/-- C4: for every input set of named token pairs, the resolver returns a
mapping whose key set is a subset of the input pair names, and a pair name
appears in the result exactly when its on-chain lookup succeeded and
returned something other than the zero address. -/
theorem getPairAddresses_result_spec
    (lookup : Option String → Option String → Except String String)
    (tps : List (String × (Option String × Option String))) :
    (∀ name addr, (name, addr) ∈ get_pair_addresses lookup tps ↔
        ∃ ta tb, (name, (ta, tb)) ∈ tps ∧ lookup ta tb = Except.ok addr ∧
          addr ≠ zeroAddress)
    ∧ (∀ n, n ∈ (get_pair_addresses lookup tps).map Prod.fst →
        n ∈ tps.map Prod.fst)
    ∧ (∀ n, n ∈ (get_pair_addresses lookup tps).map Prod.fst ↔
        ∃ ta tb addr, (n, (ta, tb)) ∈ tps ∧ lookup ta tb = Except.ok addr ∧
          addr ≠ zeroAddress) := by
  refine ⟨mem_get_pair_addresses lookup tps, get_pair_addresses_keys_subset lookup tps, ?_⟩
  intro n
  constructor
  · intro hn
    obtain ⟨⟨n', a⟩, hmem, hfst⟩ := List.mem_map.mp hn
    obtain ⟨ta, tb, hmem', hok, hnz⟩ := (mem_get_pair_addresses lookup tps n' a).mp hmem
    exact ⟨ta, tb, a, hfst ▸ hmem', hok, hnz⟩
  · rintro ⟨ta, tb, addr, hmem, hok, hnz⟩
    exact List.mem_map.mpr ⟨(n, addr),
      (mem_get_pair_addresses lookup tps n addr).mpr ⟨ta, tb, hmem, hok, hnz⟩, rfl⟩

/-- Witness for C4: concrete instantiation of the membership
characterisation. -/
theorem getPairAddresses_result_spec_witness :
    ("mUSDC/mUSDT", "0x3") ∈ get_pair_addresses
        (fun (_ _ : Option String) => (Except.ok "0x3" : Except String String))
        [("mUSDC/mUSDT", (some "0xA", some "0xB"))] ↔
      ∃ ta tb, ("mUSDC/mUSDT", (ta, tb)) ∈ [("mUSDC/mUSDT", (some "0xA", some "0xB"))] ∧
        (fun (_ _ : Option String) => (Except.ok "0x3" : Except String String)) ta tb
          = Except.ok "0x3" ∧ ("0x3" : String) ≠ zeroAddress :=
  (getPairAddresses_result_spec
    (fun (_ _ : Option String) => (Except.ok "0x3" : Except String String))
    [("mUSDC/mUSDT", (some "0xA", some "0xB"))]).1 "mUSDC/mUSDT" "0x3"

/-- C5: a failure of one pair lookup is caught locally and treated as not
found for that pair only; the remaining lookups still run and their
results are unchanged. -/
theorem getPairAddresses_error_isolated
    (lookup : Option String → Option String → Except String String)
    (xs ys : List (String × (Option String × Option String)))
    (n : String) (ta tb : Option String) (msg : String)
    (h : lookup ta tb = Except.error msg) :
    get_pair_addresses lookup (xs ++ (n, (ta, tb)) :: ys)
      = get_pair_addresses lookup (xs ++ ys) :=
  get_pair_addresses_skip_error lookup xs ys n ta tb msg h

/-- Witness for C5: a concrete failing middle lookup is skipped and the
others are unaffected. -/
theorem getPairAddresses_error_isolated_witness :
    (fun (ta : Option String) (_ : Option String) =>
        if ta = some "0xBAD" then Except.error "boom" else Except.ok "0x5")
      (some "0xBAD") (some "0xB") = Except.error "boom"
    ∧ get_pair_addresses
        (fun (ta : Option String) (_ : Option String) =>
          if ta = some "0xBAD" then Except.error "boom" else Except.ok "0x5")
        ([("mUSDC/mUSDT", (some "0xA", some "0xB"))] ++
          ("mUSDC/mDAI", (some "0xBAD", some "0xB")) ::
          [("mWETH/mUSDC", (some "0xC", some "0xD"))])
      = get_pair_addresses
        (fun (ta : Option String) (_ : Option String) =>
          if ta = some "0xBAD" then Except.error "boom" else Except.ok "0x5")
        ([("mUSDC/mUSDT", (some "0xA", some "0xB"))] ++
          [("mWETH/mUSDC", (some "0xC", some "0xD"))]) :=
  ⟨rfl, getPairAddresses_error_isolated _ _ _ "mUSDC/mDAI" (some "0xBAD") (some "0xB")
    "boom" rfl⟩

/-- C6: the resolver script exits 1 exactly when the factory address is
missing from the Environment Store or the resolver result is empty, and
exits 0 otherwise. -/
theorem extractMain_exit_codes (chainId : Nat) (store frontendOld : Option String)
    (lookup : Option String → Option String → Except String String) :
    ((extractMain chainId store frontendOld lookup).1 = 1 ↔
      (envGetD (loadStore store) "FACTORY_ADDRESS" "" = "" ∨
        get_pair_addresses lookup (tokenPairsOf (loadStore store)) = []))
    ∧ ((extractMain chainId store frontendOld lookup).1 = 0 ↔
      ¬ (envGetD (loadStore store) "FACTORY_ADDRESS" "" = "" ∨
        get_pair_addresses lookup (tokenPairsOf (loadStore store)) = [])) := by
  by_cases h1 : envGetD (loadStore store) "FACTORY_ADDRESS" "" = ""
  · simp [extractMain, h1]
  · by_cases h2 : get_pair_addresses lookup (tokenPairsOf (loadStore store)) = []
    · simp [extractMain, h1, h2]
    · simp [extractMain, h1, h2]

/-- C3 counterexample: with the Environment Store absent, the
synchronizer's load operation does not silently yield an empty mapping: it
returns None and the run signals failure with exit code 1. -/
theorem loadEnv_absent_signals_error :
    load_env none = none
    ∧ frontendMain "anvil" none id id id id true ⟨none, none, none, none, none⟩
        = (1, ⟨none, none, none, none, none⟩) :=
  ⟨rfl, rfl⟩

/-- C3 (amended): with the store absent, the resolver script's inline load
silently yields an empty mapping, while the synchronizer's load_env
returns None and its main returns 1 without touching any artifact. -/
theorem absent_store_load_behavior :
    loadStore none = []
    ∧ (∀ (network : String) (tTok tPrice tPage tDep : String → String)
        (dirExists : Bool) (fs : FrontendFS),
        frontendMain network none tTok tPrice tPage tDep dirExists fs = (1, fs)) :=
  ⟨rfl, fun _ _ _ _ _ _ _ => rfl⟩

/-- C9: on every catalogue pair name, the variable-name computation of the
source code agrees with the spec's transliteration (strip the m marker,
replace the slash with an underscore, upper-case), and the concrete
example resolver result mUSDC/mUSDT to 0x333 produces the expected line in
both artifacts. -/
theorem pair_variable_naming :
    (∀ name ∈ pairCatalogueNames, pairVarCore name = specPairVar name)
    ∧ ("PAIR_USDC_USDT=0x333\n" ∈
        readlines (update_contract_env [("mUSDC/mUSDT", "0x333")] 31337
          (some "FACTORY_ADDRESS=0xABC\nUSDC_ADDRESS=0x111\nUSDT_ADDRESS=0x222\n")))
    ∧ ("NEXT_PUBLIC_ANVIL_PAIR_USDC_USDT=0x333\n" ∈
        readlines (update_frontend_env [("mUSDC/mUSDT", "0x333")] 31337 (some ""))) := by
  refine ⟨?_, by decide, by decide⟩
  intro name hn
  simp only [pairCatalogueNames, List.mem_cons, List.not_mem_nil, or_false] at hn
  rcases hn with rfl|rfl|rfl|rfl|rfl|rfl|rfl|rfl|rfl|rfl
  all_goals decide

/-- Witness for C9 at the catalogue name mUSDC/mUSDT. -/
theorem pair_variable_naming_witness :
    "mUSDC/mUSDT" ∈ pairCatalogueNames
    ∧ pairVarCore "mUSDC/mUSDT" = specPairVar "mUSDC/mUSDT" :=
  ⟨by decide, pair_variable_naming.1 "mUSDC/mUSDT" (by decide)⟩

/-- C7 counterexample: a blank line between the pair-address header and
the next real line is neither the header nor PAIR_-prefixed, yet it is not
passed through: the input below has two such blank lines among its
non-machine-managed lines, while the rewritten file retains only one blank
line in total. -/
theorem updateContractEnv_drops_blank_in_section :
    ((readlines "# Pair Addresses\n\n\nB=2\n").filter
        (fun l => !(isPairHeader l) && !(isPairVar l))).count "\n" = 2
    ∧ (readlines (update_contract_env [] 31337 (some "# Pair Addresses\n\n\nB=2\n"))).count "\n" = 1 := by
  exact ⟨by decide, by decide⟩

/-- C7 (amended): the rewrite keeps lines unchanged and in order (the kept
lines form a sublist of the input lines); every non-blank line that is
neither the pair header nor PAIR_-prefixed is passed through; blank lines
are also passed through except inside the skipped pair section, so a file
with no pair header and no PAIR_ line is passed through in full; the
output is the kept lines followed by the regenerated block. -/
theorem updateContractEnv_passthrough (pairs : List (String × String))
    (chainId : Nat) (x : String) :
    (removePairSection (readlines x) false).Sublist (readlines x)
    ∧ ((readlines x).filter
        (fun l => !(isPairHeader l) && !(isPairVar l) && !(pyStrip l == ""))).Sublist
        (removePairSection (readlines x) false)
    ∧ ((∀ l ∈ readlines x, isPairHeader l = false ∧ isPairVar l = false) →
        removePairSection (readlines x) false = readlines x)
    ∧ update_contract_env pairs chainId (some x)
        = writelines (removePairSection (readlines x) false
            ++ ["\n# Pair Addresses (" ++ networkName chainId ++ " - Chain ID "
                  ++ toString chainId ++ ")\n"]
            ++ pairs.map (fun p => "PAIR_" ++ pairVarCore p.1 ++ "=" ++ p.2 ++ "\n")) :=
  ⟨removePairSection_sublist _ _, removePairSection_keeps _ _,
    removePairSection_all_pass _, rfl⟩

/-- Witness for C7: a file without any machine-managed content passes
through in full. -/
theorem updateContractEnv_passthrough_witness :
    (∀ l ∈ readlines "A=1\nB=2\n", isPairHeader l = false ∧ isPairVar l = false)
    ∧ removePairSection (readlines "A=1\nB=2\n") false = readlines "A=1\nB=2\n" :=
  ⟨by decide, (updateContractEnv_passthrough [] 31337 "A=1\nB=2\n").2.2.1 (by decide)⟩

/-- C1 counterexample: a second run of the resolver's environment writers
on the outputs of the first is not byte-identical: update_contract_env
gains an extra blank line before the regenerated block, and
update_frontend_env additionally duplicates its comment header. -/
theorem extract_env_writers_not_idempotent :
    update_contract_env [("mUSDC/mUSDT", "0x3")] 31337
        (some (update_contract_env [("mUSDC/mUSDT", "0x3")] 31337
          (some "FACTORY_ADDRESS=0x1\n")))
      ≠ update_contract_env [("mUSDC/mUSDT", "0x3")] 31337 (some "FACTORY_ADDRESS=0x1\n")
    ∧ update_frontend_env [("mUSDC/mUSDT", "0x3")] 31337
        (some (update_frontend_env [("mUSDC/mUSDT", "0x3")] 31337 (some "")))
      ≠ update_frontend_env [("mUSDC/mUSDT", "0x3")] 31337 (some "") := by
  exact ⟨by decide, by decide⟩

/-- C1 (amended): the synchronizer's full-rewrite artifact is idempotent:
running update_env_local again on its own output, with the same
Environment Record (whose values are newline-free and stripped, as every
record loaded from a store file is), writes a byte-identical file. -/
theorem updateEnvLocal_idempotent (e : List (String × String)) (old : Option String)
    (network : String) (he : EnvClean e) :
    update_env_local e (some (update_env_local e old network)) network
      = update_env_local e old network :=
  update_env_local_idem_aux e old network he

/-- Witness for C1: concrete idempotence of update_env_local. -/
theorem updateEnvLocal_idempotent_witness :
    EnvClean [("FACTORY_ADDRESS", "0x1")]
    ∧ update_env_local [("FACTORY_ADDRESS", "0x1")]
        (some (update_env_local [("FACTORY_ADDRESS", "0x1")] (some "X=1\n") "anvil")) "anvil"
      = update_env_local [("FACTORY_ADDRESS", "0x1")] (some "X=1\n") "anvil" :=
  ⟨by decide, updateEnvLocal_idempotent [("FACTORY_ADDRESS", "0x1")] (some "X=1\n")
    "anvil" (by decide)⟩

/-- C2 counterexample: a pair-address variable previously present in
.env.local under the Anvil namespace is discarded by an update of the
Sepolia target: update_env_local rewrites the file from its fixed
template, which has no pair-address lines. -/
theorem envLocal_drops_pair_vars :
    envGet (parseEnv (readlines "NEXT_PUBLIC_ANVIL_PAIR_USDC_USDT=0xAAA\n"))
        "NEXT_PUBLIC_ANVIL_PAIR_USDC_USDT" = some "0xAAA"
    ∧ envGet (parseEnv (readlines (update_env_local [("FACTORY_ADDRESS", "0x1")]
        (some "NEXT_PUBLIC_ANVIL_PAIR_USDC_USDT=0xAAA\n") "sepolia")))
        "NEXT_PUBLIC_ANVIL_PAIR_USDC_USDT" = none := by
  exact ⟨by decide, by decide⟩

/-- C2 (amended): switching target preserves the other target's previously
recorded values for every key of the fixed template: a Sepolia run leaves
every previously present Anvil-namespaced template value unchanged and
vice versa; keys outside the template (such as pair-address variables) are
not preserved. -/
theorem envLocal_preserves_other_network_keys
    (e : List (String × String)) (old : String) (k v : String) (he : EnvClean e) :
    ((k ∈ ["NEXT_PUBLIC_ANVIL_RPC_URL", "NEXT_PUBLIC_FACTORY_ADDRESS",
        "NEXT_PUBLIC_ROUTER_ADDRESS", "NEXT_PUBLIC_PRICE_ORACLE_ADDRESS",
        "NEXT_PUBLIC_FAUCET_ADDRESS", "NEXT_PUBLIC_USDC_ADDRESS",
        "NEXT_PUBLIC_USDT_ADDRESS", "NEXT_PUBLIC_DAI_ADDRESS",
        "NEXT_PUBLIC_WETH_ADDRESS", "NEXT_PUBLIC_WBTC_ADDRESS",
        "NEXT_PUBLIC_LINK_ADDRESS", "NEXT_PUBLIC_UNI_ADDRESS"]) →
      envGet (parseEnv (readlines old)) k = some v →
      envGet (parseEnv (readlines (update_env_local e (some old) "sepolia"))) k = some v)
    ∧ ((k ∈ ["NEXT_PUBLIC_SEPOLIA_RPC_URL", "NEXT_PUBLIC_SEPOLIA_FACTORY_ADDRESS",
        "NEXT_PUBLIC_SEPOLIA_ROUTER_ADDRESS", "NEXT_PUBLIC_SEPOLIA_PRICE_ORACLE_ADDRESS",
        "NEXT_PUBLIC_SEPOLIA_FAUCET_ADDRESS", "NEXT_PUBLIC_SEPOLIA_USDC_ADDRESS",
        "NEXT_PUBLIC_SEPOLIA_USDT_ADDRESS", "NEXT_PUBLIC_SEPOLIA_DAI_ADDRESS",
        "NEXT_PUBLIC_SEPOLIA_WETH_ADDRESS", "NEXT_PUBLIC_SEPOLIA_WBTC_ADDRESS",
        "NEXT_PUBLIC_SEPOLIA_LINK_ADDRESS", "NEXT_PUBLIC_SEPOLIA_UNI_ADDRESS"]) →
      envGet (parseEnv (readlines old)) k = some v →
      envGet (parseEnv (readlines (update_env_local e (some old) "anvil"))) k = some v) := by
  constructor
  · intro hk hold
    fin_cases hk <;>
      exact update_env_local_preserve_key e old "sepolia" _ v he (by decide) (by decide)
        (by rw [if_pos rfl]; exact sepoliaAssignments_get_none e _ (by decide)) hold
  · intro hk hold
    fin_cases hk <;>
      exact update_env_local_preserve_key e old "anvil" _ v he (by decide) (by decide)
        (by rw [if_neg (by decide)]; exact anvilAssignments_get_none e _ (by decide)) hold

/-- Witness for C2: a Sepolia run keeps a previously recorded Anvil token
address. -/
theorem envLocal_preserves_other_network_keys_witness :
    EnvClean [("FACTORY_ADDRESS", "0x1")]
    ∧ "NEXT_PUBLIC_USDC_ADDRESS" ∈ (["NEXT_PUBLIC_ANVIL_RPC_URL", "NEXT_PUBLIC_FACTORY_ADDRESS",
        "NEXT_PUBLIC_ROUTER_ADDRESS", "NEXT_PUBLIC_PRICE_ORACLE_ADDRESS",
        "NEXT_PUBLIC_FAUCET_ADDRESS", "NEXT_PUBLIC_USDC_ADDRESS",
        "NEXT_PUBLIC_USDT_ADDRESS", "NEXT_PUBLIC_DAI_ADDRESS",
        "NEXT_PUBLIC_WETH_ADDRESS", "NEXT_PUBLIC_WBTC_ADDRESS",
        "NEXT_PUBLIC_LINK_ADDRESS", "NEXT_PUBLIC_UNI_ADDRESS"] : List String)
    ∧ envGet (parseEnv (readlines "NEXT_PUBLIC_USDC_ADDRESS=0xCC\n"))
        "NEXT_PUBLIC_USDC_ADDRESS" = some "0xCC"
    ∧ envGet (parseEnv (readlines (update_env_local [("FACTORY_ADDRESS", "0x1")]
        (some "NEXT_PUBLIC_USDC_ADDRESS=0xCC\n") "sepolia")))
        "NEXT_PUBLIC_USDC_ADDRESS" = some "0xCC" :=
  ⟨by decide, by decide, by decide,
    (envLocal_preserves_other_network_keys [("FACTORY_ADDRESS", "0x1")]
        "NEXT_PUBLIC_USDC_ADDRESS=0xCC\n" "NEXT_PUBLIC_USDC_ADDRESS" "0xCC"
        (by decide)).1 (by decide) (by decide)⟩

/-- C10: after every run of update_env_local, the frontend .env.local
contains exactly the fixed template keys in their fixed order, whatever the
file previously held; every key outside the template, including pair
variables written by the resolver script, is absent from the result. -/
theorem envLocal_exactly_template_keys (e : List (String × String))
    (old : Option String) (network : String) (he : EnvClean e) :
    ((parseEnv (readlines (update_env_local e old network))).map Prod.fst = envLocalKeys)
    ∧ (∀ k, k ∉ envLocalKeys →
        envGet (parseEnv (readlines (update_env_local e old network))) k = none) := by
  have hp : parseEnv (readlines (update_env_local e old network))
      = envLocalBindings (envLocalFinal e old network) := by
    rw [update_env_local_eq]
    exact parse_renderEnvLocal _ (envLocalFinal_clean old network he)
  constructor
  · rw [hp]
    show List.map Prod.fst (envLocalKeys.map
        (fun k => (k, envGetD (envLocalFinal e old network) k (envLocalDefault k))))
      = envLocalKeys
    rw [List.map_map]
    exact List.map_id envLocalKeys
  · intro k hk
    rw [hp]
    exact envGet_map_of_not_mem hk

/-- Witness for C10: concrete run producing exactly the template keys. -/
theorem envLocal_exactly_template_keys_witness :
    EnvClean [("FACTORY_ADDRESS", "0x1")]
    ∧ (parseEnv (readlines (update_env_local [("FACTORY_ADDRESS", "0x1")]
        (some "NEXT_PUBLIC_ANVIL_PAIR_USDC_USDT=0xAAA\n") "anvil"))).map Prod.fst
      = envLocalKeys :=
  ⟨by decide, (envLocal_exactly_template_keys [("FACTORY_ADDRESS", "0x1")]
    (some "NEXT_PUBLIC_ANVIL_PAIR_USDC_USDT=0xAAA\n") "anvil" (by decide)).1⟩

/-- C8: with a loadable store, an existing frontend directory and the
required addresses present, a missing downstream TypeScript artifact is
skipped and never created while the others are still rewritten, the run
exits 0, and the frontend environment file is always created or
overwritten in full. -/
theorem frontendMain_missing_artifact_skipped
    (tTok tPrice tPage tDep : String → String) (fs : FrontendFS) (s : String)
    (henv : parseEnv (readlines s) ≠ [])
    (hfac : envGetD (parseEnv (readlines s)) "FACTORY_ADDRESS" "" ≠ "")
    (hrout : envGetD (parseEnv (readlines s)) "ROUTER_ADDRESS" "" ≠ "") :
    (frontendMain "anvil" (some s) tTok tPrice tPage tDep true fs).1 = 0
    ∧ (fs.tokens_ts = none →
        (frontendMain "anvil" (some s) tTok tPrice tPage tDep true fs).2.tokens_ts = none)
    ∧ (∀ c, fs.tokens_ts = some c →
        (frontendMain "anvil" (some s) tTok tPrice tPage tDep true fs).2.tokens_ts = some (tTok c))
    ∧ (fs.pricefeeds_ts = none →
        (frontendMain "anvil" (some s) tTok tPrice tPage tDep true fs).2.pricefeeds_ts = none)
    ∧ (∀ c, fs.pricefeeds_ts = some c →
        (frontendMain "anvil" (some s) tTok tPrice tPage tDep true fs).2.pricefeeds_ts = some (tPrice c))
    ∧ (fs.page_tsx = none →
        (frontendMain "anvil" (some s) tTok tPrice tPage tDep true fs).2.page_tsx = none)
    ∧ (∀ c, fs.page_tsx = some c →
        (frontendMain "anvil" (some s) tTok tPrice tPage tDep true fs).2.page_tsx = some (tPage c))
    ∧ (fs.deprecated_ts = none →
        (frontendMain "anvil" (some s) tTok tPrice tPage tDep true fs).2.deprecated_ts = none)
    ∧ (∀ c, fs.deprecated_ts = some c →
        (frontendMain "anvil" (some s) tTok tPrice tPage tDep true fs).2.deprecated_ts = some (tDep c))
    ∧ (frontendMain "anvil" (some s) tTok tPrice tPage tDep true fs).2.env_local
        = some (update_env_local (parseEnv (readlines s)) fs.env_local "anvil") := by
  have hmain : frontendMain "anvil" (some s) tTok tPrice tPage tDep true fs
      = (0, { tokens_ts := update_tokens_config tTok fs.tokens_ts,
              pricefeeds_ts := update_pricefeeds_config tPrice fs.pricefeeds_ts,
              page_tsx := update_page_config tPage fs.page_tsx,
              deprecated_ts := update_deprecated_config tDep fs.deprecated_ts,
              env_local := some (update_env_local (parseEnv (readlines s)) fs.env_local "anvil") }) := by
    show (if parseEnv (readlines s) = [] then (1, fs)
        else if envGetD (parseEnv (readlines s)) "FACTORY_ADDRESS" "" = "" ∨
            envGetD (parseEnv (readlines s)) "ROUTER_ADDRESS" "" = "" then (1, fs)
        else if ¬ (true : Bool) then (1, fs)
        else if ("anvil" : String) = "anvil" then
          (0, { tokens_ts := update_tokens_config tTok fs.tokens_ts,
                pricefeeds_ts := update_pricefeeds_config tPrice fs.pricefeeds_ts,
                page_tsx := update_page_config tPage fs.page_tsx,
                deprecated_ts := update_deprecated_config tDep fs.deprecated_ts,
                env_local := some (update_env_local (parseEnv (readlines s)) fs.env_local "anvil") })
        else (1, fs)) = _
    rw [if_neg henv, if_neg (by push_neg; exact ⟨hfac, hrout⟩), if_neg (by simp),
        if_pos rfl]
  rw [hmain]
  refine ⟨rfl, ?_, ?_, ?_, ?_, ?_, ?_, ?_, ?_, rfl⟩
  · intro h; simp [update_tokens_config, h]
  · intro c h; simp [update_tokens_config, h]
  · intro h; simp [update_pricefeeds_config, h]
  · intro c h; simp [update_pricefeeds_config, h]
  · intro h; simp [update_page_config, h]
  · intro c h; simp [update_page_config, h]
  · intro h; simp [update_deprecated_config, h]
  · intro c h; simp [update_deprecated_config, h]

/-- Witness for C8: concrete run with tokens.ts absent and priceFeeds.ts
present. -/
theorem frontendMain_missing_artifact_skipped_witness :
    (parseEnv (readlines "FACTORY_ADDRESS=0x1\nROUTER_ADDRESS=0x2\n") ≠ []
      ∧ envGetD (parseEnv (readlines "FACTORY_ADDRESS=0x1\nROUTER_ADDRESS=0x2\n"))
          "FACTORY_ADDRESS" "" ≠ ""
      ∧ envGetD (parseEnv (readlines "FACTORY_ADDRESS=0x1\nROUTER_ADDRESS=0x2\n"))
          "ROUTER_ADDRESS" "" ≠ "")
    ∧ (frontendMain "anvil" (some "FACTORY_ADDRESS=0x1\nROUTER_ADDRESS=0x2\n")
        id id id id true ⟨none, some "P", some "G", some "D", none⟩).1 = 0
    ∧ (frontendMain "anvil" (some "FACTORY_ADDRESS=0x1\nROUTER_ADDRESS=0x2\n")
        id id id id true ⟨none, some "P", some "G", some "D", none⟩).2.tokens_ts = none
    ∧ (frontendMain "anvil" (some "FACTORY_ADDRESS=0x1\nROUTER_ADDRESS=0x2\n")
        id id id id true ⟨none, some "P", some "G", some "D", none⟩).2.pricefeeds_ts
      = some (id "P") := by
  refine ⟨⟨by decide, by decide, by decide⟩, ?_, ?_, ?_⟩
  · exact (frontendMain_missing_artifact_skipped id id id id
      ⟨none, some "P", some "G", some "D", none⟩ "FACTORY_ADDRESS=0x1\nROUTER_ADDRESS=0x2\n"
      (by decide) (by decide) (by decide)).1
  · exact (frontendMain_missing_artifact_skipped id id id id
      ⟨none, some "P", some "G", some "D", none⟩ "FACTORY_ADDRESS=0x1\nROUTER_ADDRESS=0x2\n"
      (by decide) (by decide) (by decide)).2.1 rfl
  · exact (frontendMain_missing_artifact_skipped id id id id
      ⟨none, some "P", some "G", some "D", none⟩ "FACTORY_ADDRESS=0x1\nROUTER_ADDRESS=0x2\n"
      (by decide) (by decide) (by decide)).2.2.2.2.1 "P" rfl
